import Mathlib

/-!
A Lean model of the Exim/Python local_scan bridge, `expy_local_scan.c`.

The definitions below follow `src/expy_local_scan.c` function by function and keep
the names of the C source.  Conventions of the embedding:

* a C string is represented by the `String` of its characters before the
  terminating NUL; a nullable `char *` is an `Option String`; a Python string
  may contain NUL characters, and where the code reads one through a `char *`
  (`PyString_AsString`) it gets the characters before the first NUL
  (`c_string`);
* the C `int` that `local_scan` returns is 32 bits wide; the narrowing of the
  `long` held by a Python integer to that `int` is written out (`int_of_long`);
  string lengths are taken to be below `2^31`, so the length arithmetic of
  `get_format_string` is done on natural numbers;
* Python objects are modelled by the shapes the bridge can tell apart through
  the C API calls it makes (`PyObject`);
* the host (Exim) is a record of the variables and primitives the bridge uses
  (`Host`); the entry point of the user module is a function that yields the
  module-method calls it made, the module dictionary it left behind and its
  return value (`CallOutcome`).
-/

namespace Expy

/-! ## String safety transform (`get_format_string`, lines 60-114) -/

/-- Loop of line 74: counts the percent characters of the string, starting from
the count accumulated so far. -/
def count_percent : List Char → Nat → Nat
  | [], percent_count => percent_count
  | c :: p, percent_count =>
      count_percent p (if c = '%' then percent_count + 1 else percent_count)

/-- Loop of lines 95-103: copies the string into the new buffer, writing a
second percent character after every percent character copied. -/
def copy_escaped : List Char → List Char
  | [] => []
  | c :: p => if c = '%' then c :: '%' :: copy_escaped p else c :: copy_escaped p

/-- Lines 80-86: the value of `need_newline` after the decision block.  The
test `len && *(p-1) == '\n'` looks at the last character of a non-empty string. -/
def decide_newline (str : List Char) (need_newline : Int) : Int :=
  if need_newline ≠ 0 then
    (if str.length ≠ 0 ∧ str.getLast? = some '\n' then 0 else 1)
  else need_newline

/-- Embedding of `get_format_string(str, need_newline)` on character lists. -/
def get_format_chars (str : List Char) (need_newline : Int) : List Char :=
  let percent_count := count_percent str 0
  let need_newline := decide_newline str need_newline
  if percent_count = 0 ∧ need_newline = 0 then
    str
  else
    let q := copy_escaped str
    if need_newline ≠ 0 then q ++ ['\n'] else q

/-- Embedding of `get_format_string`: the returned C string. -/
def get_format_string (str : String) (need_newline : Int) : String :=
  String.mk (get_format_chars str.data need_newline)

/-! ### Vocabulary used to state the properties of the transform -/

/-- Lengths of the maximal runs of consecutive percent characters of a text,
left to right; `run` is the length of the run being scanned. -/
def percent_runs_from : List Char → Nat → List Nat
  | [], run => if run = 0 then [] else [run]
  | c :: rest, run =>
      if c = '%' then percent_runs_from rest (run + 1)
      else if run = 0 then percent_runs_from rest 0
      else run :: percent_runs_from rest 0

/-- Lengths of the maximal runs of consecutive percent characters of a string. -/
def percent_runs (s : String) : List Nat := percent_runs_from s.data 0

/-- Left-to-right scan of a format string the way a printf-style sink reads it:
`%%` is consumed as a pair, any other percent character is a directive. -/
def no_directive : List Char → Bool
  | [] => true
  | ['%'] => false
  | c :: d :: rest =>
      if c = '%' then (if d = '%' then no_directive rest else false)
      else no_directive (d :: rest)
  | _ :: [] => true

/-! ## Python objects as the bridge observes them -/

/-- Python objects, by the shapes the C API calls of the bridge distinguish:
`None`, integers (`PyInt_Check` holds; the payload is the C `long`), strings,
tuples, lists, and objects of any other type that is neither an integer nor a
sequence type (compared by identity, carried here as a tag). -/
inductive PyObject where
  | none
  | int (v : Int)
  | str (s : String)
  | tuple (items : List PyObject)
  | list (items : List PyObject)
  | other (tag : Nat)

mutual
/-- Python equality (`==`) of two modelled objects. -/
def PyObject.eq : PyObject → PyObject → Bool
  | .none, .none => true
  | .int a, .int b => a == b
  | .str a, .str b => a == b
  | .tuple a, .tuple b => PyObject.eq_items a b
  | .list a, .list b => PyObject.eq_items a b
  | .other a, .other b => a == b
  | _, _ => false
/-- Element-wise equality of two item lists. -/
def PyObject.eq_items : List PyObject → List PyObject → Bool
  | [], [] => true
  | x :: xs, y :: ys => PyObject.eq x y && PyObject.eq_items xs ys
  | _, _ => false
end

/-- The C API call `PySequence_Check`: strings, tuples and lists are sequences. -/
def PySequence_Check : PyObject → Bool
  | .str _ => true
  | .tuple _ => true
  | .list _ => true
  | _ => false

/-- The C API call `PySequence_Size`; `-1` signals an error. -/
def PySequence_Size : PyObject → Int
  | .str s => s.data.length
  | .tuple items => items.length
  | .list items => items.length
  | _ => -1

/-- The C API call `PySequence_GetItem`; `none` is the NULL of an error. -/
def PySequence_GetItem : PyObject → Nat → Option PyObject
  | .str s, i => (s.data.get? i).map (fun c => PyObject.str (String.mk [c]))
  | .tuple items, i => items.get? i
  | .list items, i => items.get? i
  | _, _ => Option.none

/-- The C API call `PySequence_Contains`: `1` when the value is found, `0` when
it is not, `-1` on error.  Tuples and lists compare their items for equality;
a string container (Python 2.2, against which the bridge is built) accepts
only a one-character string and raises otherwise. -/
def PySequence_Contains : PyObject → PyObject → Int
  | .tuple items, x => if items.any (fun y => PyObject.eq y x) then 1 else 0
  | .list items, x => if items.any (fun y => PyObject.eq y x) then 1 else 0
  | .str s, .str t =>
      (match t.data with
       | [c] => if c ∈ s.data then 1 else 0
       | _ => -1)
  | _, _ => -1

/-- The C API call `PyInt_Check`. -/
def PyInt_Check : PyObject → Bool
  | .int _ => true
  | _ => false

/-- The C API call `PyInt_AsLong`; `-1` is the error value for non-integers. -/
def PyInt_AsLong : PyObject → Int
  | .int v => v
  | _ => -1

/-- A Python string read through a `char *`: the characters before its first
NUL character (a Python string may contain NUL characters, a C string ends at
the first one). -/
def c_string (s : String) : String :=
  String.mk (s.data.takeWhile (fun c => c != '\x00'))

/-- The C API call `PyString_AsString`, as the C string the caller reads at the
pointer it returns: the text of the string up to its first NUL; `none` is the
NULL returned for an object that is not a string. -/
def PyString_AsString : PyObject → Option String
  | .str s => some (c_string s)
  | _ => Option.none

/-- The host primitive `string_copy`: a copy of a C string in host storage. -/
def string_copy (s : Option String) : Option String := s

/-- The interpreter services whose results the bridge only passes on. -/
structure PyRuntime where
  /-- text that `str()` produces for an object that is not a string -/
  str_other : PyObject → String

/-- The C API call `PyObject_Str`, as the text of the Python string it returns:
a string stringifies to itself.  The call is taken to succeed: an object whose
`__str__` raises is outside the model. -/
def PyObject_Str (rt : PyRuntime) : PyObject → String
  | .str s => s
  | o => rt.str_other o

/-- Conversion of a C `long` to the 32-bit C `int` (two's complement wrap). -/
def int_of_long (v : Int) : Int :=
  (v + 2147483648) % 4294967296 - 2147483648

/-- A dictionary with string keys, as an association list. -/
abbrev Dict := List (String × PyObject)

/-- The C API call `PyDict_SetItemString`. -/
def PyDict_SetItemString (d : Dict) (key : String) (v : PyObject) : Dict :=
  (key, v) :: d.filter (fun e => e.1 != key)

/-- The C API call `PyDict_GetItemString`; `none` is the NULL of a missing key. -/
def PyDict_GetItemString (d : Dict) (key : String) : Option PyObject :=
  (d.find? (fun e => e.1 == key)).map (fun e => e.2)

/-! ## The host (Exim) -/

/-- Constants of `local_scan.h`, which is not part of the repository. -/
structure HostConsts where
  LOCAL_SCAN_ACCEPT : Int
  LOCAL_SCAN_REJECT : Int
  LOCAL_SCAN_TEMPREJECT : Int
  LOG_MAIN : Int
  LOG_REJECT : Int

/-- The macro `PYTHON_FAILURE_RETURN` (line 50). -/
def PYTHON_FAILURE_RETURN (k : HostConsts) : Int := k.LOCAL_SCAN_ACCEPT

/-- An entry of the host array `recipients_list`. -/
structure recipient_item where
  address : Option String
  pno : Int
  errors_to : Option String
deriving DecidableEq, Repr

/-- A node of the host list `header_list`. -/
structure header_line where
  text : String
  type : Char
deriving DecidableEq, Repr

/-- The host variables the bridge reads and writes, and a record of the calls
it makes to the host primitives and to `expy_remove_recipient`.  The call
records are never read by the code. -/
structure Host where
  sender_address : Option String
  interface_address : Option String
  interface_port : Int
  received_protocol : Option String
  sender_host_address : Option String
  sender_host_authenticated : Option String
  sender_host_name : Option String
  sender_host_port : Int
  header_list : List header_line
  recipients_list : List recipient_item
  recipients_count : Int
  /-- arguments of the calls `log_write(selector, flags, format)`, oldest first -/
  log_written : List (Int × Int × String)
  /-- arguments of the calls `header_add(type, format)`, oldest first -/
  headers_added : List (Char × String)
  /-- calls `expy_remove_recipient(n)` made so far, oldest first, each with the
  value of `recipients_count` when it was made -/
  removed_calls : List (Nat × Int)
  /-- arguments of the calls `receive_add_recipient(recipient, pno)`, oldest first -/
  added_calls : List (Option String × Int)
deriving DecidableEq, Repr

/-- The host primitive `log_write`. -/
def log_write (h : Host) (selector flags : Int) (format : String) : Host :=
  { h with log_written := h.log_written ++ [(selector, flags, format)] }

/-- The host primitive `header_add`. -/
def header_add (h : Host) (type : Char) (format : String) : Host :=
  { h with headers_added := h.headers_added ++ [(type, format)] }

/-- The host primitive `receive_add_recipient`: stores the entry in slot
`recipients_count` of the array (growing it when full) and increments the count. -/
def receive_add_recipient (h : Host) (recipient : Option String) (pno : Int) : Host :=
  let item : recipient_item := { address := recipient, pno := pno, errors_to := Option.none }
  let slot := h.recipients_count.toNat
  { h with
    recipients_list :=
      if slot < h.recipients_list.length then h.recipients_list.set slot item
      else h.recipients_list ++ [item]
    recipients_count := h.recipients_count + 1
    added_calls := h.added_calls ++ [(recipient, pno)] }

/-- The addresses of the live part of the recipient array, slots
`0 .. recipients_count - 1`. -/
def Host.recipients (h : Host) : List (Option String) :=
  (h.recipients_list.take h.recipients_count.toNat).map (fun r => r.address)

/-! ## Module methods (lines 116-186) -/

/-- A call of the entry point to one of the module methods that act on the
host: `exim.log(str, which)` and `exim.add_header(str)`.  The text `str` is the
C string that `PyArg_ParseTuple` delivered to the method. -/
inductive MethodCall where
  | log (str : String) (which : Option Int)
  | add_header (str : String)

/-- Embedding of `expy_header_add` (lines 145-156). -/
def expy_header_add (h : Host) (str : String) : Host :=
  header_add h ' ' (get_format_string str 1)

/-- Embedding of `expy_log_write` (lines 162-177); `which` defaults to `LOG_MAIN`. -/
def expy_log_write (k : HostConsts) (h : Host) (str : String) (which : Option Int) : Host :=
  log_write h 0 (which.getD k.LOG_MAIN) (get_format_string str 0)

/-- Effect on the host of one module-method call. -/
def MethodCall.run (k : HostConsts) (h : Host) : MethodCall → Host
  | .log str which => expy_log_write k h str which
  | .add_header str => expy_header_add h str

/-- The names bound in the module dictionary by `Py_InitModule` (lines 180-186);
the built-in function objects are opaque. -/
def expy_exim_methods : Dict :=
  [("expand", PyObject.other 0), ("log", PyObject.other 1), ("add_header", PyObject.other 2)]

/-! ## Helper functions for local_scan (lines 189-284) -/

/-- Embedding of `expy_dict_string` (lines 194-208): a NULL value is stored as `None`. -/
def expy_dict_string (d : Dict) (key : String) (val : Option String) : Dict :=
  match val with
  | some s => PyDict_SetItemString d key (PyObject.str s)
  | Option.none => PyDict_SetItemString d key PyObject.none

/-- Embedding of `expy_dict_int` (lines 213-220). -/
def expy_dict_int (d : Dict) (key : String) (val : Int) : Dict :=
  PyDict_SetItemString d key (PyObject.int val)

/-- Second loop of `expy_get_headers` (lines 242-250): one pair per node. -/
def expy_get_headers_lines : List header_line → List PyObject
  | [] => []
  | p :: next =>
      PyObject.tuple [PyObject.str p.text, PyObject.str (String.mk [p.type])]
        :: expy_get_headers_lines next

/-- Embedding of `expy_get_headers` (lines 228-255). -/
def expy_get_headers (d : Dict) (h : Host) : Dict :=
  PyDict_SetItemString d "headers" (PyObject.tuple (expy_get_headers_lines h.header_list))

/-- The C API call `PyString_FromString` on an entry address; the host never
holds a NULL address in a live slot, for which the call is undefined. -/
def PyString_FromString : Option String → PyObject
  | some s => PyObject.str s
  | Option.none => PyObject.none

/-- Embedding of `get_recipients` (lines 261-271): the items of the tuple. -/
def get_recipients (h : Host) : List PyObject :=
  (List.range h.recipients_count.toNat).map
    (fun i => PyString_FromString ((h.recipients_list.get? i).bind (fun r => r.address)))

/-- Loop of `expy_remove_recipient` (lines 280-281): `k` iterations starting at
index `i`, each copying slot `i+1` into slot `i`. -/
def expy_remove_shift : Nat → Nat → List recipient_item → List recipient_item
  | 0, _, l => l
  | k + 1, i, l =>
      expy_remove_shift k (i + 1)
        (match l.get? (i + 1) with
         | some r => l.set i r
         | Option.none => l)

/-- Embedding of `expy_remove_recipient` (lines 277-284): the loop runs for
`i = n, ..., recipients_count - 2`. -/
def expy_remove_recipient (h : Host) (n : Nat) : Host :=
  { h with
    recipients_list :=
      expy_remove_shift (h.recipients_count - 1 - (n : Int)).toNat n h.recipients_list
    recipients_count := h.recipients_count - 1
    removed_calls := h.removed_calls ++ [(n, h.recipients_count)] }

/-! ## local_scan (lines 289-446) -/

/-- First reconciliation loop (lines 392-397), `for (i = k - 1; i >= 0; i--)`:
removes the original recipients that the working sequence does not contain. -/
def remove_missing (original : List PyObject) (working : PyObject) : Nat → Host → Host
  | 0, h => h
  | i + 1, h =>
      let addr := (original.get? i).getD PyObject.none
      remove_missing original working i
        (if PySequence_Contains working addr = 0 then expy_remove_recipient h i else h)

/-- Second reconciliation loop (lines 400-406), `for (i = k - 1; i >= 0; i--)`:
adds the working entries that the original tuple does not contain. -/
def add_new (original : List PyObject) (working : PyObject) : Nat → Host → Host
  | 0, h => h
  | i + 1, h =>
      let addr := (PySequence_GetItem working i).getD PyObject.none
      add_new original working i
        (if PySequence_Contains (PyObject.tuple original) addr = 0
         then receive_add_recipient h (PyString_AsString addr) (-1) else h)

/-- Reconciliation block of `local_scan` (lines 376-407). -/
def reconcile (h : Host) (original : List PyObject) (working : Option PyObject) : Host :=
  match working with
  | Option.none => { h with recipients_count := 0 }
  | some w =>
      if PySequence_Check w = false ∨ PySequence_Size w = 0 then
        { h with recipients_count := 0 }
      else
        let h1 := remove_missing original w h.recipients_count.toNat h
        add_new original w (PySequence_Size w).toNat h1

/-- What a call of the entry point leaves behind: the module-method calls it
made, the module dictionary after the call, and its return value (`none` when
it raised an exception, the NULL of `PyObject_CallFunction`). -/
structure CallOutcome where
  calls : List MethodCall
  dict : Dict
  result : Option PyObject

/-- The object bound to the entry-point name: called with the host state it
can observe and the module dictionary. -/
abbrev UserFunc := Host → Dict → CallOutcome

/-- The user module: what its dictionary binds to `USER_FUNCTION_NAME`. -/
structure UserModule where
  local_scan : Option UserFunc

/-- The interpreter state around one call: the two globals of the bridge and
what importing `USER_MODULE_NAME` would yield (`none` when the import fails). -/
structure PyState where
  expy_exim_dict : Option Dict
  expy_user_module : Option UserModule
  importable : Option UserModule

/-- Lines 307-317: the module handle after the import step, the cached one
when there is one and the result of the import otherwise. -/
def PyState.module (py : PyState) : Option UserModule :=
  match py.expy_user_module with
  | some m => some m
  | Option.none => py.importable

/-- Lines 300-305: the module dictionary, created on first use. -/
def PyState.exim_dict (py : PyState) : Dict :=
  py.expy_exim_dict.getD expy_exim_methods

/-- What one call of `local_scan` produces. -/
structure ScanResult where
  rc : Int
  return_text : Option String
  host : Host
  py : PyState

/-- Lines 331-359: the module dictionary handed to the entry point. -/
def prepare_dict (k : HostConsts) (d : Dict) (h : Host) (fd : Int)
    (original_recipients : List PyObject) : Dict :=
  let d := expy_dict_string d "sender_address" h.sender_address
  let d := expy_dict_string d "interface_address" h.interface_address
  let d := expy_dict_int d "interface_port" h.interface_port
  let d := expy_dict_string d "received_protocol" h.received_protocol
  let d := expy_dict_string d "sender_host_address" h.sender_host_address
  let d := expy_dict_string d "sender_host_authenticated" h.sender_host_authenticated
  let d := expy_dict_string d "sender_host_name" h.sender_host_name
  let d := expy_dict_int d "sender_host_port" h.sender_host_port
  let d := expy_dict_int d "fd" fd
  let d := expy_dict_int d "LOG_MAIN" k.LOG_MAIN
  let d := expy_dict_int d "LOG_REJECT" k.LOG_REJECT
  let d := expy_dict_int d "LOCAL_SCAN_ACCEPT" k.LOCAL_SCAN_ACCEPT
  let d := expy_dict_int d "LOCAL_SCAN_REJECT" k.LOCAL_SCAN_REJECT
  let d := expy_dict_int d "LOCAL_SCAN_TEMPREJECT" k.LOCAL_SCAN_TEMPREJECT
  let d := expy_get_headers d h
  PyDict_SetItemString d "recipients" (PyObject.list original_recipients)

/-- Line 362, `PyObject_CallFunction(user_func, NULL)`: the entry point runs
on the prepared module dictionary. -/
def call_user_func (k : HostConsts) (py : PyState) (h : Host) (fd : Int)
    (user_func : UserFunc) : CallOutcome :=
  user_func h (prepare_dict k py.exim_dict h fd (get_recipients h))

/-- The host after the module-method calls the entry point made while it ran. -/
def host_after_call (k : HostConsts) (h : Host) (out : CallOutcome) : Host :=
  out.calls.foldl (MethodCall.run k) h

/-- Lines 411-445: decoding of the value the entry point returned. -/
def decode_result (k : HostConsts) (rt : PyRuntime) (py : PyState) (h : Host)
    (return_text : Option String) (result : PyObject) : ScanResult :=
  let unwrap : Bool := PySequence_Check result && decide (PySequence_Size result > 0)
  let rc_obj : PyObject :=
    if unwrap then (PySequence_GetItem result 0).getD PyObject.none else result
  let return_text : Option String :=
    if unwrap ∧ PySequence_Size result > 1 then
      string_copy (PyString_AsString
        (PyObject.str (PyObject_Str rt ((PySequence_GetItem result 1).getD PyObject.none))))
    else return_text
  if PyInt_Check rc_obj then
    { rc := int_of_long (PyInt_AsLong rc_obj), return_text := return_text, host := h, py := py }
  else
    { rc := PYTHON_FAILURE_RETURN k
      return_text := some "Internal error, bad return code"
      host := log_write h 0 k.LOG_REJECT "Python expy_local_scan module didn't return integer"
      py := py }

/-- Embedding of `local_scan(fd, return_text)` (lines 289-446).  `return_text`
is the content of the output slot when the function is entered. -/
def local_scan (k : HostConsts) (rt : PyRuntime) (py : PyState) (h : Host) (fd : Int)
    (return_text : Option String) : ScanResult :=
  let py1 : PyState :=
    { expy_exim_dict := some py.exim_dict
      expy_user_module := py.module
      importable := py.importable }
  match py.module with
  | Option.none =>
      { rc := PYTHON_FAILURE_RETURN k
        return_text := some "Internal error, missing module"
        host := log_write h 0 k.LOG_REJECT "Couldn't import 'expy_local_scan' module"
        py := py1 }
  | some user_module =>
    match user_module.local_scan with
    | Option.none =>
        { rc := PYTHON_FAILURE_RETURN k
          return_text := some "Internal error, missing function"
          host := log_write h 0 k.LOG_REJECT
            "Python expy_local_scan module doesn't have a 'local_scan' function"
          py := py1 }
    | some user_func =>
      let original_recipients := get_recipients h
      let out := call_user_func k py h fd user_func
      let h1 := host_after_call k h out
      let py2 : PyState := { py1 with expy_exim_dict := some out.dict }
      match out.result with
      | Option.none =>
          { rc := PYTHON_FAILURE_RETURN k
            return_text := some "Internal error, local_scan function failed"
            host := h1
            py := py2 }
      | some result =>
          let working_recipients := PyDict_GetItemString out.dict "recipients"
          let h2 := reconcile h1 original_recipients working_recipients
          decode_result k rt py2 h2 return_text result

/-! ## Vocabulary used to state the properties of local_scan -/

/-- The host store holds exactly the given addresses: the live slots
`0 .. recipients_count - 1` of the array exist and carry them, in order. -/
def Host.holds (h : Host) (original : List String) : Prop :=
  0 ≤ h.recipients_count ∧
  h.recipients_count.toNat ≤ h.recipients_list.length ∧
  h.recipients = original.map some

/-- A Python list of address strings. -/
def address_list (addrs : List String) : PyObject :=
  PyObject.list (addrs.map PyObject.str)

/-- A Python tuple of address strings. -/
def address_tuple (addrs : List String) : PyObject :=
  PyObject.tuple (addrs.map PyObject.str)

/-- The store is well formed: the count is not negative and the live slots exist. -/
def Host.wf (h : Host) : Prop :=
  0 ≤ h.recipients_count ∧ h.recipients_count.toNat ≤ h.recipients_list.length

/-- The object is a Python list or tuple whose items are the given addresses. -/
def IsAddressSeq (w : PyObject) (ws : List String) : Prop :=
  w = address_list ws ∨ w = address_tuple ws

/-- The original entry at index `i` exists and does not occur in `working`. -/
def dropped_at (original working : List String) (i : Nat) : Bool :=
  match original.get? i with
  | some a => decide (a ∉ working)
  | Option.none => false

/-- The call reaches the entry point, which returns `result` without raising
and leaves the name `recipients` bound to `working` (`none`: not bound). -/
def Returns (k : HostConsts) (py : PyState) (h : Host) (fd : Int)
    (working : Option PyObject) (result : PyObject) : Prop :=
  ∃ m f, py.module = some m ∧ m.local_scan = some f ∧
    (call_user_func k py h fd f).result = some result ∧
    PyDict_GetItemString (call_user_func k py h fd f).dict "recipients" = working

/-- The call reaches the entry point, which raises an exception, the name
`recipients` being bound to `working` at that time. -/
def Raises (k : HostConsts) (py : PyState) (h : Host) (fd : Int)
    (working : Option PyObject) : Prop :=
  ∃ m f, py.module = some m ∧ m.local_scan = some f ∧
    (call_user_func k py h fd f).result = Option.none ∧
    PyDict_GetItemString (call_user_func k py h fd f).dict "recipients" = working

/-- The returned value is not decodable: an empty sequence, a value that is
neither an integer nor a sequence, or a non-empty sequence whose element 0 is
not an integer. -/
def Malformed (r : PyObject) : Prop :=
  (PySequence_Check r = true ∧ PySequence_Size r = 0) ∨
  (PyInt_Check r = false ∧ PySequence_Check r = false) ∨
  (PySequence_Check r = true ∧ PySequence_Size r > 0 ∧
    ∀ first, PySequence_GetItem r 0 = some first → PyInt_Check first = false)

/-- The host as the entry point leaves it, before reconciliation: the state at
call start with the module-method calls of the entry point applied. -/
def host_at_return (k : HostConsts) (py : PyState) (h : Host) (fd : Int) : Host :=
  match py.module with
  | some m =>
    (match m.local_scan with
     | some f => host_after_call k h (call_user_func k py h fd f)
     | Option.none => h)
  | Option.none => h

/-- The original entry at index `i` is one the working sequence does not contain. -/
def missing_at (orig : List String) (working : PyObject) (i : Nat) : Bool :=
  match orig.get? i with
  | some a => decide (PySequence_Contains working (PyObject.str a) = 0)
  | Option.none => false

/-- The working entry is one the original tuple does not contain. -/
def new_in (original : List PyObject) (a : String) : Bool :=
  decide (PySequence_Contains (PyObject.tuple original) (PyObject.str a) = 0)

/-- None of the strings contains a NUL character: each is the same text
whether read as a Python string or through a `char *`. -/
def nul_free (ws : List String) : Prop :=
  ∀ a ∈ ws, '\x00' ∉ a.data

/-! ### Concrete data for the worked examples -/

/-- A host whose live recipients are the given addresses, with no headers,
no session data and nothing logged. -/
def host_of (addrs : List String) : Host :=
  { sender_address := Option.none, interface_address := Option.none, interface_port := 0,
    received_protocol := Option.none, sender_host_address := Option.none,
    sender_host_authenticated := Option.none, sender_host_name := Option.none,
    sender_host_port := 0, header_list := [],
    recipients_list :=
      addrs.map (fun a => { address := some a, pno := -1, errors_to := Option.none }),
    recipients_count := addrs.length,
    log_written := [], headers_added := [], removed_calls := [], added_calls := [] }

/-- An entry point that rebinds `recipients` to a list of the given addresses
and then returns the given value (`none`: raises an exception instead). -/
def script_setting (working : List String) (result : Option PyObject) : UserFunc :=
  fun _ d =>
    { calls := [],
      dict := PyDict_SetItemString d "recipients" (address_list working),
      result := result }

/-- An entry point that leaves the module dictionary alone and returns the
given value (`none`: raises an exception instead). -/
def script_returning (result : Option PyObject) : UserFunc :=
  fun _ d => { calls := [], dict := d, result := result }

/-- An entry point that deletes the name `recipients` from the module
dictionary and returns the given value. -/
def script_deleting (result : Option PyObject) : UserFunc :=
  fun _ d => { calls := [], dict := d.filter (fun e => e.1 != "recipients"), result := result }

/-- An entry point that rebinds `recipients` to the given object and returns
the given value. -/
def script_binding (working : PyObject) (result : Option PyObject) : UserFunc :=
  fun _ d =>
    { calls := [], dict := PyDict_SetItemString d "recipients" working, result := result }

/-- A fresh interpreter in which importing the user module yields a module
defining the given entry point. -/
def py_with (f : UserFunc) : PyState :=
  { expy_exim_dict := Option.none, expy_user_module := Option.none,
    importable := some { local_scan := some f } }

/-- Values of the constants of `local_scan.h` used in the worked examples. -/
def exim_consts : HostConsts :=
  { LOCAL_SCAN_ACCEPT := 0, LOCAL_SCAN_REJECT := 3, LOCAL_SCAN_TEMPREJECT := 5,
    LOG_MAIN := 1, LOG_REJECT := 16 }

/-- A runtime for the worked examples. -/
def plain_runtime : PyRuntime := { str_other := fun _ => "<object>" }

/-! ### Vocabulary for the later properties of the transform -/

/-- The reference text of the transform, following its description: every
percent character of `x` replaced by two, followed by one line feed exactly
when the flag is set and `x` does not end with a line feed already. -/
def sanitize_reference (x : String) (ensure_trailing_newline : Bool) : String :=
  String.mk
    (x.data.flatMap (fun c => if c = '%' then ['%', '%'] else [c]) ++
      (if ensure_trailing_newline = true ∧ x.data.getLast? ≠ some '\n' then ['\n'] else []))

/-- Number of percent characters of a string. -/
def percent_count (x : String) : Nat := x.data.count '%'

/-- What a printf-style sink makes of a format string without directives,
scanning left to right: each pair `%%` is output as one percent character. -/
def collapse_percent : List Char → List Char
  | [] => []
  | [c] => [c]
  | c :: d :: rest =>
      if c = '%' ∧ d = '%' then '%' :: collapse_percent rest
      else c :: collapse_percent (d :: rest)

/-! ### Vocabulary for the later properties of local_scan -/

/-- Two host states have the same recipient store: the same array, the same
count and the same record of removal and addition calls. -/
def same_store (h1 h2 : Host) : Prop :=
  h1.recipients_list = h2.recipients_list ∧
  h1.recipients_count = h2.recipients_count ∧
  h1.removed_calls = h2.removed_calls ∧
  h1.added_calls = h2.added_calls

/-- The calls `expy_remove_recipient(i)` that the first reconciliation loop
(lines 392-397) makes, in the order it makes them, each with the host state
at the moment of the call; the loop is that of `remove_missing`. -/
def remove_missing_calls (original : List PyObject) (working : PyObject) :
    Nat → Host → List (Nat × Host)
  | 0, _ => []
  | i + 1, h =>
      let addr := (original.get? i).getD PyObject.none
      if PySequence_Contains working addr = 0 then
        (i, h) :: remove_missing_calls original working i (expy_remove_recipient h i)
      else remove_missing_calls original working i h

/-- The calls `expy_remove_recipient(i)` of the reconciliation block (lines
376-407), each with the host state at the moment of the call. -/
def reconcile_remove_calls (h : Host) (original : List PyObject)
    (working : Option PyObject) : List (Nat × Host) :=
  match working with
  | Option.none => []
  | some w =>
      if PySequence_Check w = false ∨ PySequence_Size w = 0 then []
      else remove_missing_calls original w h.recipients_count.toNat h

/-! ### The reconciliation block with every index checked -/

/-- The loop of `expy_remove_recipient` (lines 280-281) with its array accesses
checked: `none` as soon as slot `i + 1` is read, or slot `i` written, outside
the array. -/
def expy_remove_shift_checked :
    Nat → Nat → List recipient_item → Option (List recipient_item)
  | 0, _, l => some l
  | k + 1, i, l =>
      match l.get? (i + 1) with
      | some r =>
          if i < l.length then expy_remove_shift_checked k (i + 1) (l.set i r)
          else Option.none
      | Option.none => Option.none

/-- The function `expy_remove_recipient(n)` (lines 277-284) with its index
checked: `none` when `n` is not below `recipients_count` at the moment of the
call, or when the loop leaves the array. -/
def expy_remove_recipient_checked (h : Host) (n : Nat) : Option Host :=
  if (n : Int) < h.recipients_count then
    match expy_remove_shift_checked (h.recipients_count - 1 - (n : Int)).toNat n
        h.recipients_list with
    | some l =>
        some { h with
          recipients_list := l
          recipients_count := h.recipients_count - 1
          removed_calls := h.removed_calls ++ [(n, h.recipients_count)] }
    | Option.none => Option.none
  else Option.none

/-- The first reconciliation loop (lines 392-397) with its reads checked:
`none` when `PyTuple_GET_ITEM(original_recipients, i)` reads outside the tuple
or a removal call fails its check. -/
def remove_missing_checked (original : List PyObject) (working : PyObject) :
    Nat → Host → Option Host
  | 0, h => some h
  | i + 1, h =>
      match original.get? i with
      | Option.none => Option.none
      | some addr =>
          if PySequence_Contains working addr = 0 then
            match expy_remove_recipient_checked h i with
            | some h1 => remove_missing_checked original working i h1
            | Option.none => Option.none
          else remove_missing_checked original working i h

/-- The second reconciliation loop (lines 400-406) with its reads checked:
`none` when `PySequence_GetItem(working_recipients, i)` reads outside the
sequence. -/
def add_new_checked (original : List PyObject) (working : PyObject) :
    Nat → Host → Option Host
  | 0, h => some h
  | i + 1, h =>
      match PySequence_GetItem working i with
      | Option.none => Option.none
      | some addr =>
          add_new_checked original working i
            (if PySequence_Contains (PyObject.tuple original) addr = 0
             then receive_add_recipient h (PyString_AsString addr) (-1) else h)

/-- The reconciliation block (lines 376-407) with every index checked. -/
def reconcile_checked (h : Host) (original : List PyObject) (working : Option PyObject) :
    Option Host :=
  match working with
  | Option.none => some { h with recipients_count := 0 }
  | some w =>
      if PySequence_Check w = false ∨ PySequence_Size w = 0 then
        some { h with recipients_count := 0 }
      else
        match remove_missing_checked original w h.recipients_count.toNat h with
        | some h1 => add_new_checked original w (PySequence_Size w).toNat h1
        | Option.none => Option.none

/-- The function `local_scan` with its reconciliation block run with every
index checked: `none` when an index check fails, and the result of
`local_scan` on the paths that do not reach the block. -/
def local_scan_checked (k : HostConsts) (rt : PyRuntime) (py : PyState) (h : Host) (fd : Int)
    (return_text : Option String) : Option ScanResult :=
  match py.module with
  | Option.none => some (local_scan k rt py h fd return_text)
  | some user_module =>
    match user_module.local_scan with
    | Option.none => some (local_scan k rt py h fd return_text)
    | some user_func =>
      let original_recipients := get_recipients h
      let out := call_user_func k py h fd user_func
      let h1 := host_after_call k h out
      let py2 : PyState :=
        { expy_exim_dict := some out.dict
          expy_user_module := py.module
          importable := py.importable }
      match out.result with
      | Option.none => some (local_scan k rt py h fd return_text)
      | some result =>
          let working_recipients := PyDict_GetItemString out.dict "recipients"
          match reconcile_checked h1 original_recipients working_recipients with
          | some h2 => some (decode_result k rt py2 h2 return_text result)
          | Option.none => Option.none

/-! # Theorems -/

/-! ## The string safety transform -/

theorem count_percent_eq (l : List Char) (c : Nat) :
    count_percent l c = c + l.count '%' := by
  induction l generalizing c with
  | nil => simp [count_percent]
  | cons a t ih =>
    by_cases h : a = '%'
    · subst h
      simp [count_percent, ih, List.count_cons]
      omega
    · have h2 : ¬ ('%' = a) := fun e => h e.symm
      simp [count_percent, ih, List.count_cons, h]

theorem count_percent_zero_iff (l : List Char) :
    count_percent l 0 = 0 ↔ '%' ∉ l := by
  rw [count_percent_eq, Nat.zero_add, List.count_eq_zero]

theorem copy_escaped_append (l m : List Char) :
    copy_escaped (l ++ m) = copy_escaped l ++ copy_escaped m := by
  induction l with
  | nil => simp [copy_escaped]
  | cons a t ih =>
    by_cases h : a = '%' <;> simp [copy_escaped, h, ih]

theorem mem_copy_escaped (c : Char) (l : List Char) :
    c ∈ copy_escaped l ↔ c ∈ l := by
  induction l with
  | nil => simp [copy_escaped]
  | cons a t ih =>
    by_cases h : a = '%'
    · subst h
      simp [copy_escaped, ih]
    · simp [copy_escaped, h, ih]

theorem length_copy_escaped (l : List Char) :
    (copy_escaped l).length = l.length + l.count '%' := by
  induction l with
  | nil => simp [copy_escaped]
  | cons a t ih =>
    by_cases h : a = '%'
    · subst h
      simp [copy_escaped, ih]
      omega
    · have h2 : ¬ ('%' = a) := fun e => h e.symm
      simp [copy_escaped, h, ih, List.count_cons]
      omega

theorem copy_escaped_of_not_mem (l : List Char) (h : '%' ∉ l) :
    copy_escaped l = l := by
  induction l with
  | nil => simp [copy_escaped]
  | cons a t ih =>
    simp only [List.mem_cons, not_or] at h
    have h1 : ¬ (a = '%') := fun e => h.1 e.symm
    simp [copy_escaped, h1, ih h.2]

/-- What the transform returns, in one formula: the escaped copy, followed by a
line feed when one was asked for and the text does not end with one already. -/
theorem get_format_chars_eq (l : List Char) (n : Int) :
    get_format_chars l n =
      copy_escaped l ++ (if n ≠ 0 ∧ l.getLast? ≠ some '\n' then ['\n'] else []) := by
  unfold get_format_chars decide_newline
  by_cases hn : n = 0
  · subst hn
    by_cases hp : count_percent l 0 = 0
    · have := copy_escaped_of_not_mem l ((count_percent_zero_iff l).1 hp)
      simp [hp, this]
    · simp [hp]
  · by_cases hl : l.getLast? = some '\n'
    · have hne : l ≠ [] := by
        intro e
        simp [e] at hl
      by_cases hp : count_percent l 0 = 0
      · have := copy_escaped_of_not_mem l ((count_percent_zero_iff l).1 hp)
        simp [hn, hl, hne, hp, this]
      · simp [hn, hl, hne, hp]
    · simp [hn, hl]

theorem getLast_copy_escaped (l : List Char) :
    (copy_escaped l).getLast? = l.getLast? := by
  induction l using List.reverseRecOn with
  | nil => simp [copy_escaped]
  | append_singleton t a ih =>
    rw [copy_escaped_append]
    by_cases h : a = '%'
    · subst h
      simp [copy_escaped]
    · simp [copy_escaped, h]

theorem getLast_get_format_chars (l : List Char) (n : Int) (hn : n ≠ 0) :
    (get_format_chars l n).getLast? = some '\n' := by
  rw [get_format_chars_eq]
  by_cases hl : l.getLast? = some '\n'
  · simp [hn, hl, getLast_copy_escaped]
  · simp [hn, hl]

theorem copy_escaped_eq_self_iff (l : List Char) :
    copy_escaped l = l ↔ '%' ∉ l := by
  constructor
  · intro h
    have hlen := length_copy_escaped l
    rw [h] at hlen
    have : l.count '%' = 0 := by omega
    exact List.count_eq_zero.1 this
  · exact copy_escaped_of_not_mem l

theorem get_format_chars_twice (l : List Char) :
    get_format_chars (get_format_chars l 1) 1 = copy_escaped (get_format_chars l 1) := by
  have h := getLast_get_format_chars l 1 (by decide)
  rw [get_format_chars_eq (get_format_chars l 1) 1]
  simp [h]

theorem mem_percent_get_format_chars (l : List Char) (n : Int) :
    '%' ∈ get_format_chars l n ↔ '%' ∈ l := by
  rw [get_format_chars_eq]
  by_cases h : n ≠ 0 ∧ l.getLast? ≠ some '\n'
  · rw [if_pos h]
    simp [mem_copy_escaped]
  · rw [if_neg h]
    simp [mem_copy_escaped]

/-- C2, as stated, fails: the transform escapes percent characters again on
every application.  For the one-character string `%` the first application
gives `%%` and a line feed, the second gives `%%%%` and a line feed. -/
theorem C2_counterexample :
    get_format_string "%" 1 = "%%\n" ∧
    get_format_string (get_format_string "%" 1) 1 = "%%%%\n" ∧
    get_format_string (get_format_string "%" 1) 1 ≠ get_format_string "%" 1 := by
  decide

/-- C2, amended (safety-transform idempotence).  For every string `x`,
`get_format_string(get_format_string(x, 1), 1)` equals `get_format_string(x, 1)`
exactly when `x` contains no percent character. -/
theorem C2_idempotent_iff_no_percent (x : String) :
    get_format_string (get_format_string x 1) 1 = get_format_string x 1 ↔ '%' ∉ x.data := by
  unfold get_format_string
  rw [String.ext_iff]
  show get_format_chars (get_format_chars x.data 1) 1 = get_format_chars x.data 1 ↔ _
  rw [get_format_chars_twice, copy_escaped_eq_self_iff, mem_percent_get_format_chars]

theorem percent_runs_from_of_not_mem (l : List Char) (h : '%' ∉ l) :
    percent_runs_from l 0 = [] := by
  induction l with
  | nil => simp [percent_runs_from]
  | cons a t ih =>
    simp only [List.mem_cons, not_or] at h
    have h1 : ¬ (a = '%') := fun e => h.1 e.symm
    simp [percent_runs_from, h1, ih h.2]

theorem percent_runs_copy_escaped (l : List Char) (run : Nat) (hrun : Even run) :
    ∀ n ∈ percent_runs_from (copy_escaped l) run, Even n := by
  induction l generalizing run with
  | nil =>
    intro n hn
    by_cases h0 : run = 0
    · simp [copy_escaped, percent_runs_from, h0] at hn
    · simp [copy_escaped, percent_runs_from, h0] at hn
      rw [hn]; exact hrun
  | cons a t ih =>
    intro n hn
    by_cases h : a = '%'
    · subst h
      simp only [copy_escaped, if_true, percent_runs_from] at hn
      have he : Even (run + 1 + 1) := by
        have : run + 1 + 1 = run + 2 := rfl
        rw [this]
        exact Even.add hrun (by decide)
      exact ih (run + 1 + 1) he n hn
    · simp only [copy_escaped, if_neg h, percent_runs_from] at hn
      by_cases h0 : run = 0
      · rw [if_pos h0] at hn
        exact ih 0 (by decide) n hn
      · rw [if_neg h0] at hn
        rcases List.mem_cons.1 hn with e | hn
        · rw [e]; exact hrun
        · exact ih 0 (by decide) n hn

theorem no_directive_copy_escaped (l : List Char) :
    no_directive (copy_escaped l) = true := by
  induction l with
  | nil => simp [copy_escaped, no_directive]
  | cons a t ih =>
    by_cases h : a = '%'
    · subst h
      simp [copy_escaped, no_directive, ih]
    · simp only [copy_escaped, if_neg h]
      cases hc : copy_escaped t with
      | nil => 
        unfold no_directive
        split <;> simp_all
      | cons d r =>
        rw [hc] at ih
        rw [no_directive]
        simp [h, ih]

theorem get_format_chars_eq_copy (l : List Char) (n : Int) :
    ∃ m : List Char, get_format_chars l n = copy_escaped m := by
  rw [get_format_chars_eq]
  by_cases h : n ≠ 0 ∧ l.getLast? ≠ some '\n'
  · refine ⟨l ++ ['\n'], ?_⟩
    rw [if_pos h, copy_escaped_append]
    simp [copy_escaped]
  · exact ⟨l, by rw [if_neg h]; simp⟩

/-- C3 (safety-transform escaping).  For every string `x` and every value of
the newline flag, every maximal run of consecutive percent characters in the
output of `get_format_string` has even length, and a left-to-right scan of the
output that consumes `%%` as a pair never meets a lone percent character. -/
theorem C3_no_unescaped_percent (x : String) (need_newline : Int) :
    (∀ n ∈ percent_runs (get_format_string x need_newline), Even n) ∧
    no_directive (get_format_string x need_newline).data = true := by
  obtain ⟨m, hm⟩ := get_format_chars_eq_copy x.data need_newline
  unfold percent_runs get_format_string
  simp only [hm]
  exact ⟨percent_runs_copy_escaped m 0 (by decide), no_directive_copy_escaped m⟩

/-! ## The recipient array under `expy_remove_recipient` -/

theorem getElem?_expy_remove_shift (k i : Nat) (l : List recipient_item)
    (hb : i + k < l.length) (j : Nat) :
    (expy_remove_shift k i l)[j]? =
      if j < i then l[j]? else if j < i + k then l[j + 1]? else l[j]? := by
  induction k generalizing i l with
  | zero =>
    by_cases hji : j < i <;> simp [expy_remove_shift, hji]
  | succ k ih =>
    have h1 : i + 1 < l.length := by omega
    have hget : l.get? (i + 1) = some l[i + 1] := by
      simp [List.getElem?_eq_getElem h1]
    simp only [expy_remove_shift, hget]
    rw [ih (i + 1) (l.set i l[i + 1]) (by simp; omega)]
    by_cases hji : j < i
    · have : i ≠ j := by omega
      simp [hji, Nat.lt_succ_of_lt hji, List.getElem?_set_ne this]
    · by_cases hje : j = i
      · subst hje
        have h2 : j < l.length := by omega
        simp [List.getElem?_set, h2, List.getElem?_eq_getElem h1]
      · have h3 : ¬ (j < i + 1) := by omega
        have h4 : i ≠ j := fun e => hje e.symm
        have h5 : i ≠ j + 1 := by omega
        simp only [h3, hji, if_false, List.getElem?_set_ne h4, List.getElem?_set_ne h5]
        by_cases h6 : j < i + 1 + k
        · have h7 : j < i + (k + 1) := by omega
          simp [h6, h7]
        · have h7 : ¬ (j < i + (k + 1)) := by omega
          simp [h6, h7]

theorem length_expy_remove_shift (k i : Nat) (l : List recipient_item) :
    (expy_remove_shift k i l).length = l.length := by
  induction k generalizing i l with
  | zero => simp [expy_remove_shift]
  | succ k ih =>
    simp only [expy_remove_shift]
    rw [ih]
    cases l.get? (i + 1) <;> simp

theorem Host.length_recipients (h : Host) (hwf : h.wf) :
    h.recipients.length = h.recipients_count.toNat := by
  have h0 := hwf.1
  have h1 := hwf.2
  unfold Host.recipients
  simp only [List.length_map, List.length_take]
  omega

theorem recipients_expy_remove_recipient (h : Host) (n : Nat) (hwf : h.wf)
    (hn : n < h.recipients_count.toNat) :
    (expy_remove_recipient h n).recipients = h.recipients.eraseIdx n ∧
    (expy_remove_recipient h n).wf ∧
    (expy_remove_recipient h n).recipients_count = h.recipients_count - 1 := by
  obtain ⟨h0, h1⟩ := hwf
  refine ⟨?_, ⟨?_, ?_⟩, rfl⟩
  · unfold Host.recipients expy_remove_recipient
    simp only
    apply List.ext_getElem?
    intro j
    have hk : (h.recipients_count - 1 - (n : Int)).toNat = h.recipients_count.toNat - 1 - n := by
      omega
    have hc : (h.recipients_count - 1).toNat = h.recipients_count.toNat - 1 := by omega
    rw [hk, hc]
    simp only [List.getElem?_map, List.getElem?_take, List.getElem?_eraseIdx]
    rw [getElem?_expy_remove_shift _ _ _ (by omega)]
    by_cases hj : j < h.recipients_count.toNat - 1
    · by_cases hjn : j < n
      · have : j < h.recipients_count.toNat := by omega
        simp [hj, hjn, this]
      · have h2 : j < n + (h.recipients_count.toNat - 1 - n) := by omega
        have h3 : j + 1 < h.recipients_count.toNat := by omega
        simp [hj, hjn, h2, h3]
    · by_cases hjn : j < n
      · omega
      · have h3 : ¬ (j + 1 < h.recipients_count.toNat) := by omega
        simp [hj, hjn, h3]
  · show 0 ≤ h.recipients_count - 1
    omega
  · show (h.recipients_count - 1).toNat ≤ (expy_remove_shift _ _ _).length
    rw [length_expy_remove_shift]
    omega

theorem recipients_receive_add_recipient (h : Host) (a : Option String) (pno : Int)
    (hwf : h.wf) :
    (receive_add_recipient h a pno).recipients = h.recipients ++ [a] ∧
    (receive_add_recipient h a pno).wf ∧
    (receive_add_recipient h a pno).recipients_count = h.recipients_count + 1 := by
  obtain ⟨h0, h1⟩ := hwf
  have hc : (h.recipients_count + 1).toNat = h.recipients_count.toNat + 1 := by omega
  refine ⟨?_, ⟨?_, ?_⟩, rfl⟩
  · unfold Host.recipients receive_add_recipient
    simp only [hc]
    by_cases hs : h.recipients_count.toNat < h.recipients_list.length
    · rw [if_pos hs]
      apply List.ext_getElem?
      intro j
      simp only [List.getElem?_map, List.getElem?_take, List.getElem?_append, List.length_map,
        List.length_take, List.getElem?_set]
      rw [Nat.min_eq_left h1]
      by_cases hj : j < h.recipients_count.toNat
      · have h2 : j < h.recipients_count.toNat + 1 := by omega
        have h3 : ¬ (h.recipients_count.toNat = j) := by omega
        simp [hj, h2, h3]
      · by_cases hje : j = h.recipients_count.toNat
        · subst hje
          simp [hs]
        · have h2 : ¬ (j < h.recipients_count.toNat + 1) := by omega
          have h5 : 1 ≤ j - h.recipients_count.toNat := by omega
          simp [h2, hj, h5]
    · rw [if_neg hs]
      have he : h.recipients_count.toNat = h.recipients_list.length := by omega
      rw [he]
      simp
  · show 0 ≤ h.recipients_count + 1
    omega
  · show (h.recipients_count + 1).toNat ≤ _
    unfold receive_add_recipient
    simp only
    by_cases hs : h.recipients_count.toNat < h.recipients_list.length
    · rw [if_pos hs]; simp; omega
    · rw [if_neg hs]; simp; omega

/-! ## Sequences of address strings -/

theorem any_eq_str (ws : List String) (a : String) :
    (ws.map PyObject.str).any (fun y => PyObject.eq y (PyObject.str a)) = decide (a ∈ ws) := by
  induction ws with
  | nil => simp
  | cons b t ih =>
    simp only [List.map_cons, List.any_cons, ih, PyObject.eq]
    by_cases hba : b = a
    · simp [hba]
    · have : ¬ (a = b) := fun e => hba e.symm
      simp [hba, this]

theorem contains_address_seq (w : PyObject) (ws : List String) (hw : IsAddressSeq w ws)
    (a : String) :
    PySequence_Contains w (PyObject.str a) = if a ∈ ws then 1 else 0 := by
  rcases hw with e | e <;> subst e <;>
    simp [address_list, address_tuple, PySequence_Contains, any_eq_str]

theorem contains_tuple_str (orig : List String) (a : String) :
    PySequence_Contains (PyObject.tuple (orig.map PyObject.str)) (PyObject.str a) =
      if a ∈ orig then 1 else 0 := by
  simp [PySequence_Contains, any_eq_str]

theorem getItem_address_seq (w : PyObject) (ws : List String) (hw : IsAddressSeq w ws)
    (i : Nat) :
    PySequence_GetItem w i = (ws.get? i).map PyObject.str := by
  rcases hw with e | e <;> subst e <;>
    simp [address_list, address_tuple, PySequence_GetItem]

theorem check_address_seq (w : PyObject) (ws : List String) (hw : IsAddressSeq w ws) :
    PySequence_Check w = true ∧ PySequence_Size w = ws.length := by
  rcases hw with e | e <;> subst e <;>
    simp [address_list, address_tuple, PySequence_Check, PySequence_Size]

theorem get_recipients_of_holds (h : Host) (orig : List String) (hh : h.holds orig) :
    get_recipients h = orig.map PyObject.str := by
  obtain ⟨h0, h1, h2⟩ := hh
  unfold get_recipients
  apply List.ext_getElem?
  intro j
  have hview : h.recipients[j]? = (orig.map some)[j]? := by rw [h2]
  unfold Host.recipients at hview
  simp only [List.getElem?_map, List.getElem?_take] at hview
  have hlen : orig.length = h.recipients_count.toNat := by
    have := congrArg List.length h2
    unfold Host.recipients at this
    simp only [List.length_map, List.length_take] at this
    omega
  simp only [List.getElem?_map, List.get?_eq_getElem?]
  by_cases hj : j < h.recipients_count.toNat
  · rw [if_pos hj] at hview
    rw [List.getElem?_range hj]
    have hjo : j < orig.length := by omega
    rw [List.getElem?_eq_getElem hjo] at hview ⊢
    have hjl : j < h.recipients_list.length := by omega
    rw [List.getElem?_eq_getElem hjl] at hview
    simp only [Option.map_some', Option.some.injEq] at hview
    simp [List.getElem?_eq_getElem hjl, hview, PyString_FromString]
  · have hjo : ¬ (j < orig.length) := by omega
    have e1 : (List.range h.recipients_count.toNat)[j]? = Option.none := by
      apply List.getElem?_eq_none
      simp; omega
    have e2 : orig[j]? = Option.none := by
      apply List.getElem?_eq_none
      omega
    simp [e1, e2]

theorem dropped_at_iff (original working : List String) (i : Nat) :
    dropped_at original working i = true ↔ ∃ a, original.get? i = some a ∧ a ∉ working := by
  unfold dropped_at
  cases original.get? i with
  | none => simp
  | some a => simp

theorem dropped_at_lt (original working : List String) (i : Nat)
    (hd : dropped_at original working i = true) : i < original.length := by
  obtain ⟨a, hg, _⟩ := (dropped_at_iff original working i).1 hd
  rw [List.get?_eq_getElem?] at hg
  exact (List.getElem?_eq_some_iff.1 hg).1

theorem Host.wf_of_holds (h : Host) (orig : List String) (hh : h.holds orig) : h.wf :=
  ⟨hh.1, hh.2.1⟩

theorem Host.count_of_holds (h : Host) (orig : List String) (hh : h.holds orig) :
    h.recipients_count.toNat = orig.length := by
  have := Host.length_recipients h (Host.wf_of_holds h orig hh)
  rw [hh.2.2] at this
  simp at this
  omega

/-! ## The two reconciliation loops -/

theorem take_eraseIdx_self {α : Type} (l : List α) (m : Nat) :
    (l.eraseIdx m).take m = l.take m := by
  apply List.ext_getElem?
  intro j
  simp only [List.getElem?_take, List.getElem?_eraseIdx]
  by_cases hj : j < m <;> simp [hj]

theorem drop_eraseIdx_self {α : Type} (l : List α) (m : Nat) :
    (l.eraseIdx m).drop m = l.drop (m + 1) := by
  apply List.ext_getElem?
  intro j
  simp only [List.getElem?_drop, List.getElem?_eraseIdx]
  have h1 : ¬ (m + j < m) := by omega
  simp [h1, Nat.add_assoc, Nat.add_comm j 1]

theorem remove_missing_spec (orig : List String) (working : PyObject) (m : Nat) (h : Host)
    (hwf : h.wf) (hm : m ≤ h.recipients_count.toNat) (hmo : m ≤ orig.length)
    (hview : h.recipients.take m = (orig.take m).map some) :
    (remove_missing (orig.map PyObject.str) working m h).recipients =
        ((orig.take m).filter
          (fun a => decide (PySequence_Contains working (PyObject.str a) ≠ 0))).map some
          ++ h.recipients.drop m ∧
    (remove_missing (orig.map PyObject.str) working m h).wf ∧
    (remove_missing (orig.map PyObject.str) working m h).removed_calls.map Prod.fst =
        h.removed_calls.map Prod.fst ++
          (List.range m).reverse.filter (missing_at orig working) ∧
    (remove_missing (orig.map PyObject.str) working m h).added_calls = h.added_calls ∧
    (remove_missing (orig.map PyObject.str) working m h).log_written = h.log_written ∧
    (remove_missing (orig.map PyObject.str) working m h).headers_added = h.headers_added := by
  induction m generalizing h with
  | zero => simp [remove_missing, hwf]
  | succ m ih =>
    have hmlt : m < orig.length := by omega
    have haddr : ((orig.map PyObject.str).get? m).getD PyObject.none = PyObject.str orig[m] := by
      simp [List.getElem?_eq_getElem hmlt]
    have hrange : (List.range (m + 1)).reverse = m :: (List.range m).reverse := by
      rw [List.range_succ]; simp
    have htake : ∀ p : String → Bool, (orig.take (m + 1)).filter p =
        (orig.take m).filter p ++ (if p orig[m] = true then [orig[m]] else []) := by
      intro p
      rw [List.take_succ, List.getElem?_eq_getElem hmlt, List.filter_append]
      by_cases hp : p orig[m] = true <;> simp [hp]
    have hlenr := Host.length_recipients h hwf
    have hmr : m < h.recipients.length := by omega
    have hsome : h.recipients[m]? = some (some orig[m]) := by
      have := congrArg (fun l => l[m]?) hview
      simp only [List.getElem?_take, List.getElem?_map] at this
      simpa [List.getElem?_eq_getElem hmlt] using this
    have hviewm : h.recipients.take m = (orig.take m).map some := by
      have := congrArg (List.take m) hview
      simpa [List.take_take] using this
    have hmiss : missing_at orig working m =
        decide (PySequence_Contains working (PyObject.str orig[m]) = 0) := by
      simp [missing_at, List.getElem?_eq_getElem hmlt]
    simp only [remove_missing, haddr]
    by_cases hc : PySequence_Contains working (PyObject.str orig[m]) = 0
    · rw [if_pos hc]
      obtain ⟨r1, r2, r3⟩ := recipients_expy_remove_recipient h m hwf (by omega)
      have ih1 := ih (expy_remove_recipient h m) r2 (by rw [r3]; omega) (by omega)
        (by rw [r1, take_eraseIdx_self]; exact hviewm)
      obtain ⟨i1, i2, i3, i4, i5, i6⟩ := ih1
      refine ⟨?_, i2, ?_, ?_, ?_, ?_⟩
      · rw [i1, r1, drop_eraseIdx_self, htake]
        simp [hc]
      · rw [i3, hrange]
        simp [expy_remove_recipient, hmiss, hc]
      · rw [i4]; rfl
      · rw [i5]; rfl
      · rw [i6]; rfl
    · rw [if_neg hc]
      obtain ⟨i1, i2, i3, i4, i5, i6⟩ := ih h hwf (by omega) (by omega) hviewm
      refine ⟨?_, i2, ?_, i4, i5, i6⟩
      · rw [i1, htake]
        have hdrop : h.recipients.drop m = some orig[m] :: h.recipients.drop (m + 1) := by
          rw [List.drop_eq_getElem_cons hmr]
          congr 1
          rw [List.getElem?_eq_getElem hmr] at hsome
          exact Option.some.inj hsome
        simp [hc, hdrop]
      · rw [i3, hrange]
        simp [hmiss, hc]

theorem add_new_spec (original : List PyObject) (w : PyObject) (ws : List String)
    (hw : IsAddressSeq w ws) (m : Nat) (h : Host) (hwf : h.wf) (hm : m ≤ ws.length) :
    (add_new original w m h).recipients =
        h.recipients ++
          (((ws.take m).reverse.filter (new_in original)).map (fun a => some (c_string a))) ∧
    (add_new original w m h).wf ∧
    (add_new original w m h).added_calls =
        h.added_calls ++
          ((ws.take m).reverse.filter (new_in original)).map
            (fun a => (some (c_string a), (-1 : Int))) ∧
    (add_new original w m h).removed_calls = h.removed_calls ∧
    (add_new original w m h).log_written = h.log_written ∧
    (add_new original w m h).headers_added = h.headers_added := by
  induction m generalizing h with
  | zero => simp [add_new, hwf]
  | succ m ih =>
    have hmlt : m < ws.length := by omega
    have haddr : (PySequence_GetItem w m).getD PyObject.none = PyObject.str ws[m] := by
      rw [getItem_address_seq w ws hw]
      simp [List.getElem?_eq_getElem hmlt]
    have htake : (ws.take (m + 1)).reverse = ws[m] :: (ws.take m).reverse := by
      rw [List.take_succ, List.getElem?_eq_getElem hmlt]; simp
    simp only [add_new, haddr]
    by_cases hc : PySequence_Contains (PyObject.tuple original) (PyObject.str ws[m]) = 0
    · rw [if_pos hc]
      obtain ⟨r1, r2, r3⟩ :=
        recipients_receive_add_recipient h (PyString_AsString (PyObject.str ws[m])) (-1) hwf
      obtain ⟨i1, i2, i3, i4, i5, i6⟩ := ih (receive_add_recipient h _ (-1)) r2 (by omega)
      refine ⟨?_, i2, ?_, ?_, ?_, ?_⟩
      · rw [i1, r1, htake]
        simp [new_in, hc, PyString_AsString]
      · rw [i3, htake]
        simp [new_in, hc, PyString_AsString, receive_add_recipient]
      · rw [i4]; rfl
      · rw [i5]; rfl
      · rw [i6]; rfl
    · rw [if_neg hc]
      obtain ⟨i1, i2, i3, i4, i5, i6⟩ := ih h hwf (by omega)
      refine ⟨?_, i2, ?_, i4, i5, i6⟩
      · rw [i1, htake]; simp [new_in, hc]
      · rw [i3, htake]; simp [new_in, hc]

/-! ## Reconciliation as a whole -/

theorem reconcile_address_seq (h : Host) (orig ws : List String) (w : PyObject)
    (hh : h.holds orig) (hw : IsAddressSeq w ws) (hne : ws ≠ []) :
    (reconcile h (orig.map PyObject.str) (some w)).recipients =
        (orig.filter (fun a => decide (a ∈ ws))).map some ++
          (ws.reverse.filter (fun a => decide (a ∉ orig))).map (fun a => some (c_string a)) ∧
    (reconcile h (orig.map PyObject.str) (some w)).wf ∧
    (reconcile h (orig.map PyObject.str) (some w)).removed_calls.map Prod.fst =
        h.removed_calls.map Prod.fst ++
          (List.range orig.length).reverse.filter
            (dropped_at orig ws) ∧
    (reconcile h (orig.map PyObject.str) (some w)).added_calls =
        h.added_calls ++
          (ws.reverse.filter (fun a => decide (a ∉ orig))).map
            (fun a => (some (c_string a), (-1 : Int))) ∧
    (reconcile h (orig.map PyObject.str) (some w)).log_written = h.log_written ∧
    (reconcile h (orig.map PyObject.str) (some w)).headers_added = h.headers_added := by
  obtain ⟨hchk, hsize⟩ := check_address_seq w ws hw
  have hwf := Host.wf_of_holds h orig hh
  have hcount := Host.count_of_holds h orig hh
  have hlen : ws.length ≠ 0 := by
    intro e; exact hne (List.length_eq_zero.1 e)
  have hsz : ¬ (PySequence_Size w = 0) := by rw [hsize]; omega
  have hkeep : (fun a => decide (PySequence_Contains w (PyObject.str a) ≠ 0)) =
      (fun a => decide (a ∈ ws)) := by
    funext a
    rw [contains_address_seq w ws hw a]
    by_cases ha : a ∈ ws <;> simp [ha]
  have hmiss : missing_at orig w = dropped_at orig ws := by
    funext i
    unfold missing_at dropped_at
    cases orig.get? i with
    | none => rfl
    | some a =>
      simp only [contains_address_seq w ws hw a]
      by_cases ha : a ∈ ws <;> simp [ha]
  have hnew : new_in (orig.map PyObject.str) = (fun a => decide (a ∉ orig)) := by
    funext a
    unfold new_in
    rw [contains_tuple_str]
    by_cases ha : a ∈ orig <;> simp [ha]
  obtain ⟨r1, r2, r3, r4, r5, r6⟩ :=
    remove_missing_spec orig w h.recipients_count.toNat h hwf (Nat.le_refl _) (by omega)
      (by rw [hh.2.2, hcount]; simp)
  obtain ⟨a1, a2, a3, a4, a5, a6⟩ :=
    add_new_spec (orig.map PyObject.str) w ws hw ws.length
      (remove_missing (orig.map PyObject.str) w h.recipients_count.toNat h) r2 (Nat.le_refl _)
  have hrec : reconcile h (orig.map PyObject.str) (some w) =
      add_new (orig.map PyObject.str) w ws.length
        (remove_missing (orig.map PyObject.str) w h.recipients_count.toNat h) := by
    have hcond : ¬ (PySequence_Check w = false ∨ (ws.length : Int) = 0) := by
      simp [hchk, hne]
    simp only [reconcile, hsize, if_neg hcond, Int.toNat_ofNat]
  rw [hrec]
  refine ⟨?_, a2, ?_, ?_, ?_, ?_⟩
  · rw [a1, r1, hkeep, hnew, hcount]
    have hd : h.recipients.drop orig.length = [] := by
      rw [hh.2.2]; simp
    simp [hd]
  · rw [a4, r3, hmiss, hcount]
  · rw [a3, r4, hnew]; simp
  · rw [a5, r5]
  · rw [a6, r6]

/-! ## The host around the call of the entry point -/

theorem MethodCall.run_frame (k : HostConsts) (h : Host) (c : MethodCall) :
    (MethodCall.run k h c).recipients_list = h.recipients_list ∧
    (MethodCall.run k h c).recipients_count = h.recipients_count ∧
    (MethodCall.run k h c).removed_calls = h.removed_calls ∧
    (MethodCall.run k h c).added_calls = h.added_calls := by
  cases c <;> simp [MethodCall.run, expy_log_write, expy_header_add, log_write, header_add]

theorem host_after_call_frame (k : HostConsts) (h : Host) (out : CallOutcome) :
    (host_after_call k h out).recipients_list = h.recipients_list ∧
    (host_after_call k h out).recipients_count = h.recipients_count ∧
    (host_after_call k h out).removed_calls = h.removed_calls ∧
    (host_after_call k h out).added_calls = h.added_calls := by
  unfold host_after_call
  generalize out.calls = cs
  induction cs generalizing h with
  | nil => simp
  | cons c t ih =>
    obtain ⟨f1, f2, f3, f4⟩ := MethodCall.run_frame k h c
    obtain ⟨i1, i2, i3, i4⟩ := ih (MethodCall.run k h c)
    simp only [List.foldl_cons]
    exact ⟨i1.trans f1, i2.trans f2, i3.trans f3, i4.trans f4⟩

theorem host_at_return_frame (k : HostConsts) (py : PyState) (h : Host) (fd : Int) :
    (host_at_return k py h fd).recipients_list = h.recipients_list ∧
    (host_at_return k py h fd).recipients_count = h.recipients_count ∧
    (host_at_return k py h fd).removed_calls = h.removed_calls ∧
    (host_at_return k py h fd).added_calls = h.added_calls := by
  unfold host_at_return
  split
  · split
    · exact host_after_call_frame k h _
    · simp
  · simp

theorem host_at_return_holds (k : HostConsts) (py : PyState) (h : Host) (fd : Int)
    (orig : List String) (hh : h.holds orig) : (host_at_return k py h fd).holds orig := by
  obtain ⟨f1, f2, _, _⟩ := host_at_return_frame k py h fd
  unfold Host.holds Host.recipients at *
  rw [f1, f2]
  exact hh

/-- The result of a call whose entry point returns: reconciliation of the host
left by the entry point, then decoding of the returned value. -/
theorem local_scan_of_returns (k : HostConsts) (rt : PyRuntime) (py : PyState) (h : Host)
    (fd : Int) (rt0 : Option String) (working : Option PyObject) (r : PyObject)
    (hret : Returns k py h fd working r) :
    ∃ py2, local_scan k rt py h fd rt0 =
      decode_result k rt py2
        (reconcile (host_at_return k py h fd) (get_recipients h) working) rt0 r := by
  obtain ⟨m, f, hm, hf, hr, hw⟩ := hret
  refine ⟨{ expy_exim_dict := some (call_user_func k py h fd f).dict
            expy_user_module := py.module
            importable := py.importable }, ?_⟩
  unfold local_scan host_at_return
  simp only [hm, hf, hr, hw]

/-- The result of a call whose entry point raises. -/
theorem local_scan_of_raises (k : HostConsts) (rt : PyRuntime) (py : PyState) (h : Host)
    (fd : Int) (rt0 : Option String) (working : Option PyObject)
    (hraise : Raises k py h fd working) :
    (local_scan k rt py h fd rt0).rc = PYTHON_FAILURE_RETURN k ∧
    (local_scan k rt py h fd rt0).return_text =
      some "Internal error, local_scan function failed" ∧
    (local_scan k rt py h fd rt0).host = host_at_return k py h fd := by
  obtain ⟨m, f, hm, hf, hr, _⟩ := hraise
  unfold local_scan host_at_return
  simp only [hm, hf, hr]
  simp

theorem decode_result_frame (k : HostConsts) (rt : PyRuntime) (py : PyState) (h : Host)
    (rt0 : Option String) (r : PyObject) :
    (decode_result k rt py h rt0 r).host.recipients_list = h.recipients_list ∧
    (decode_result k rt py h rt0 r).host.recipients_count = h.recipients_count ∧
    (decode_result k rt py h rt0 r).host.removed_calls = h.removed_calls ∧
    (decode_result k rt py h rt0 r).host.added_calls = h.added_calls := by
  unfold decode_result
  simp only
  split <;> split <;> simp [log_write]

theorem decode_result_recipients (k : HostConsts) (rt : PyRuntime) (py : PyState) (h : Host)
    (rt0 : Option String) (r : PyObject) :
    (decode_result k rt py h rt0 r).host.recipients = h.recipients := by
  obtain ⟨f1, f2, _, _⟩ := decode_result_frame k rt py h rt0 r
  unfold Host.recipients
  rw [f1, f2]

theorem remove_missing_frame (original : List PyObject) (working : PyObject) (m : Nat)
    (h : Host) :
    (remove_missing original working m h).log_written = h.log_written ∧
    (remove_missing original working m h).headers_added = h.headers_added ∧
    (remove_missing original working m h).added_calls = h.added_calls := by
  induction m generalizing h with
  | zero => simp [remove_missing]
  | succ m ih =>
    simp only [remove_missing]
    split
    · obtain ⟨i1, i2, i3⟩ := ih (expy_remove_recipient h m)
      exact ⟨i1, i2, i3⟩
    · exact ih h

theorem add_new_frame (original : List PyObject) (working : PyObject) (m : Nat) (h : Host) :
    (add_new original working m h).log_written = h.log_written ∧
    (add_new original working m h).headers_added = h.headers_added ∧
    (add_new original working m h).removed_calls = h.removed_calls := by
  induction m generalizing h with
  | zero => simp [add_new]
  | succ m ih =>
    simp only [add_new]
    split
    · obtain ⟨i1, i2, i3⟩ := ih (receive_add_recipient h _ (-1))
      exact ⟨i1, i2, i3⟩
    · exact ih h

theorem reconcile_frame (h : Host) (original : List PyObject) (working : Option PyObject) :
    (reconcile h original working).log_written = h.log_written ∧
    (reconcile h original working).headers_added = h.headers_added := by
  unfold reconcile
  split
  · simp
  · split
    · simp
    · obtain ⟨a1, a2, _⟩ := add_new_frame original ‹PyObject› (PySequence_Size ‹PyObject›).toNat
        (remove_missing original ‹PyObject› h.recipients_count.toNat h)
      obtain ⟨r1, r2, _⟩ := remove_missing_frame original ‹PyObject› h.recipients_count.toNat h
      exact ⟨a1.trans r1, a2.trans r2⟩

theorem remove_missing_id (original : List PyObject) (working : PyObject) (m : Nat) (h : Host)
    (hall : ∀ i, i < m → PySequence_Contains working ((original.get? i).getD PyObject.none) ≠ 0) :
    remove_missing original working m h = h := by
  induction m generalizing h with
  | zero => rfl
  | succ m ih =>
    simp only [remove_missing]
    rw [if_neg (hall m (Nat.lt_succ_self m))]
    exact ih h (fun i hi => hall i (Nat.lt_succ_of_lt hi))

theorem add_new_id (original : List PyObject) (working : PyObject) (m : Nat) (h : Host)
    (hall : ∀ i, i < m →
      PySequence_Contains (PyObject.tuple original)
        ((PySequence_GetItem working i).getD PyObject.none) ≠ 0) :
    add_new original working m h = h := by
  induction m generalizing h with
  | zero => rfl
  | succ m ih =>
    simp only [add_new]
    rw [if_neg (hall m (Nat.lt_succ_self m))]
    exact ih h (fun i hi => hall i (Nat.lt_succ_of_lt hi))

theorem reconcile_untouched (h : Host) (orig : List String) (w : PyObject)
    (hh : h.holds orig) (hw : IsAddressSeq w orig) :
    reconcile h (orig.map PyObject.str) (some w) = h := by
  obtain ⟨hchk, hsize⟩ := check_address_seq w orig hw
  have hcount := Host.count_of_holds h orig hh
  unfold reconcile
  simp only [hsize]
  by_cases he : orig = []
  · have h0 : h.recipients_count = 0 := by
      have := hh.1
      rw [he] at hcount
      simp at hcount
      omega
    have hc : PySequence_Check w = false ∨ ((orig.length : Nat) : Int) = 0 := by
      right; simp [he]
    rw [if_pos hc]
    cases h
    simp_all
  · have hc : ¬ (PySequence_Check w = false ∨ ((orig.length : Nat) : Int) = 0) := by
      simp [hchk, he]
    rw [if_neg hc, Int.toNat_ofNat]
    rw [remove_missing_id, add_new_id]
    · intro i hi
      rw [getItem_address_seq w orig hw]
      simp only [List.get?_eq_getElem?, List.getElem?_eq_getElem hi, Option.map_some',
        Option.getD_some, contains_tuple_str]
      simp
    · intro i hi
      rw [hcount] at hi
      simp only [List.get?_eq_getElem?, List.getElem?_map, List.getElem?_eq_getElem hi,
        Option.map_some', Option.getD_some, contains_address_seq w orig hw]
      simp

theorem reconcile_cleared (h : Host) (original : List PyObject) (working : Option PyObject)
    (hclear : working = Option.none ∨
      ∃ w, working = some w ∧ (PySequence_Check w = false ∨ PySequence_Size w = 0)) :
    reconcile h original working = { h with recipients_count := 0 } := by
  rcases hclear with e | ⟨w, e, hc⟩
  · subst e; rfl
  · subst e
    simp only [reconcile, if_pos hc]

/-- Final store, removal calls and addition calls of a call whose entry point
returns and leaves a non-empty sequence of addresses under `recipients`. -/
theorem local_scan_reconciled (k : HostConsts) (rt : PyRuntime) (py : PyState) (h : Host)
    (fd : Int) (rt0 : Option String) (original working : List String) (w r : PyObject)
    (hstore : h.holds original) (hne : working ≠ []) (hw : IsAddressSeq w working)
    (hret : Returns k py h fd (some w) r) :
    (local_scan k rt py h fd rt0).host.recipients =
        (original.filter (fun a => decide (a ∈ working))).map some ++
          (working.reverse.filter (fun a => decide (a ∉ original))).map
            (fun a => some (c_string a)) ∧
    (local_scan k rt py h fd rt0).host.removed_calls.map Prod.fst =
        h.removed_calls.map Prod.fst ++
          (List.range original.length).reverse.filter
            (dropped_at original working) ∧
    (local_scan k rt py h fd rt0).host.added_calls =
        h.added_calls ++
          (working.reverse.filter (fun a => decide (a ∉ original))).map
            (fun a => (some (c_string a), (-1 : Int))) := by
  obtain ⟨py2, hls⟩ := local_scan_of_returns k rt py h fd rt0 (some w) r hret
  obtain ⟨c1, _, c3, c4, _, _⟩ :=
    reconcile_address_seq (host_at_return k py h fd) original working w
      (host_at_return_holds k py h fd original hstore) hw hne
  obtain ⟨_, _, f3, f4⟩ := host_at_return_frame k py h fd
  rw [hls, get_recipients_of_holds h original hstore]
  obtain ⟨_, _, d3, d4⟩ := decode_result_frame k rt py2
    (reconcile (host_at_return k py h fd) (original.map PyObject.str) (some w)) rt0 r
  refine ⟨?_, ?_, ?_⟩
  · rw [decode_result_recipients, c1]
  · rw [d3, c3, f3]
  · rw [d4, c4, f4]

theorem c_string_of_nul_free (s : String) (hs : '\x00' ∉ s.data) : c_string s = s := by
  unfold c_string
  apply String.ext
  show s.data.takeWhile (fun c => c != '\x00') = s.data
  generalize s.data = l at hs
  induction l with
  | nil => rfl
  | cons a t ih =>
    simp only [List.mem_cons, not_or] at hs
    have ha : (a != '\x00') = true := by
      simpa using fun e => hs.1 e.symm
    rw [List.takeWhile_cons, ha]
    simp only [if_true]
    rw [ih hs.2]

theorem map_c_string_of_nul_free (ws : List String) (hs : nul_free ws) :
    ws.map (fun a => some (c_string a)) = ws.map some := by
  apply List.map_congr_left
  intro a ha
  rw [c_string_of_nul_free a (hs a ha)]

theorem map_c_string_call_of_nul_free (ws : List String) (hs : nul_free ws) :
    ws.map (fun a => (some (c_string a), (-1 : Int))) = ws.map (fun a => (some a, (-1 : Int))) := by
  apply List.map_congr_left
  intro a ha
  rw [c_string_of_nul_free a (hs a ha)]

theorem nul_free_filter (ws : List String) (p : String → Bool) (hs : nul_free ws) :
    nul_free (ws.reverse.filter p) := by
  intro a ha
  exact hs a (List.mem_reverse.1 (List.mem_filter.1 ha).1)

/-- C1, as stated, fails: an entry of the working sequence is handed to the
host through a `char *`, which the host reads to the first NUL.  The store
holds `a`; the entry point leaves the two strings `a` and `a`, NUL, `b`; the
second does not occur in the original sequence and is added, as `a`; the
store ends as `a, a` and does not contain the second working entry. -/
theorem C1_counterexample :
    (host_of ["a"]).holds ["a"] ∧
    Returns exim_consts (py_with (script_setting ["a", "a\x00b"] (some (PyObject.int 0))))
      (host_of ["a"]) 0 (some (address_list ["a", "a\x00b"])) (PyObject.int 0) ∧
    (local_scan exim_consts plain_runtime
        (py_with (script_setting ["a", "a\x00b"] (some (PyObject.int 0))))
        (host_of ["a"]) 0 Option.none).host.recipients = [some "a", some "a"] ∧
    "a\x00b" ∈ ["a", "a\x00b"] ∧
    some "a\x00b" ∉ (local_scan exim_consts plain_runtime
        (py_with (script_setting ["a", "a\x00b"] (some (PyObject.int 0))))
        (host_of ["a"]) 0 Option.none).host.recipients :=
  ⟨⟨by decide, by decide, by decide⟩, ⟨_, _, rfl, rfl, rfl, rfl⟩, by decide, by decide,
   by decide⟩

/-- C1, amended (reconciliation symmetric-diff law).  When the entry point
returns and leaves under `recipients` a non-empty sequence `working` of
addresses none of which contains a NUL character, the removal calls made by
`local_scan` hit exactly the indices of the original entries that do not occur
in `working`, the addition calls are exactly for the `working` entries that do
not occur in the original sequence, the addresses of the final host store are
exactly the addresses of `working`, and any other run from the same host whose
working sequence is a permutation of `working` ends with the same set of
addresses. -/
theorem C1_reconciliation_symmetric_diff (k : HostConsts) (rt : PyRuntime) (py : PyState)
    (h : Host) (fd : Int) (rt0 : Option String) (original working : List String)
    (w r : PyObject)
    (hstore : h.holds original) (hne : working ≠ []) (hnul : nul_free working)
    (hw : IsAddressSeq w working)
    (hret : Returns k py h fd (some w) r) :
    (∀ i, i ∈ ((local_scan k rt py h fd rt0).host.removed_calls.drop
              h.removed_calls.length).map Prod.fst ↔
          ∃ a, original.get? i = some a ∧ a ∉ working) ∧
    (∀ c, c ∈ (local_scan k rt py h fd rt0).host.added_calls.drop h.added_calls.length ↔
          ∃ a, c = (some a, (-1 : Int)) ∧ a ∈ working ∧ a ∉ original) ∧
    (∀ x, x ∈ (local_scan k rt py h fd rt0).host.recipients ↔ ∃ a, a ∈ working ∧ x = some a) ∧
    (∀ (py2 : PyState) (working2 : List String) (w2 r2 : PyObject),
        working2.Perm working → IsAddressSeq w2 working2 →
        Returns k py2 h fd (some w2) r2 →
        ∀ x, x ∈ (local_scan k rt py2 h fd rt0).host.recipients ↔
             x ∈ (local_scan k rt py h fd rt0).host.recipients) := by
  have hfinal : ∀ (py3 : PyState) (ws : List String) (w3 r3 : PyObject),
      ws ≠ [] → nul_free ws → IsAddressSeq w3 ws → Returns k py3 h fd (some w3) r3 →
      (local_scan k rt py3 h fd rt0).host.recipients =
        (original.filter (fun a => decide (a ∈ ws)) ++
          ws.reverse.filter (fun a => decide (a ∉ original))).map some ∧
      (local_scan k rt py3 h fd rt0).host.added_calls =
        h.added_calls ++
          (ws.reverse.filter (fun a => decide (a ∉ original))).map
            (fun a => (some a, (-1 : Int))) := by
    intro py3 ws w3 r3 hne3 hnul3 hw3 hret3
    obtain ⟨g1, _, g3⟩ :=
      local_scan_reconciled k rt py3 h fd rt0 original ws w3 r3 hstore hne3 hw3 hret3
    rw [g1, g3, map_c_string_of_nul_free _ (nul_free_filter ws _ hnul3),
      map_c_string_call_of_nul_free _ (nul_free_filter ws _ hnul3), List.map_append]
    exact ⟨rfl, rfl⟩
  obtain ⟨_, e2, _⟩ :=
    local_scan_reconciled k rt py h fd rt0 original working w r hstore hne hw hret
  obtain ⟨e1, e3⟩ := hfinal py working w r hne hnul hw hret
  have hset : ∀ (ws : List String) (x : Option String),
      x ∈ (original.filter (fun a => decide (a ∈ ws)) ++
            ws.reverse.filter (fun a => decide (a ∉ original))).map some ↔
        ∃ a, a ∈ ws ∧ x = some a := by
    intro ws x
    simp only [List.mem_map, List.mem_append, List.mem_filter, List.mem_reverse,
      decide_eq_true_eq]
    constructor
    · rintro ⟨a, ha, rfl⟩
      rcases ha with ⟨_, ha⟩ | ⟨ha, _⟩ <;> exact ⟨a, ha, rfl⟩
    · rintro ⟨a, ha, rfl⟩
      by_cases hao : a ∈ original
      · exact ⟨a, Or.inl ⟨hao, ha⟩, rfl⟩
      · exact ⟨a, Or.inr ⟨ha, hao⟩, rfl⟩
  refine ⟨?_, ?_, ?_, ?_⟩
  · intro i
    rw [List.map_drop, e2]
    have hdrop := @List.drop_left _ (h.removed_calls.map Prod.fst)
      ((List.range original.length).reverse.filter (dropped_at original working))
    rw [List.length_map] at hdrop
    rw [hdrop]
    simp only [List.mem_filter, List.mem_reverse, List.mem_range]
    constructor
    · rintro ⟨_, hi⟩
      exact (dropped_at_iff original working i).1 hi
    · intro hi
      have hd := (dropped_at_iff original working i).2 hi
      exact ⟨dropped_at_lt original working i hd, hd⟩
  · intro c
    rw [e3, List.drop_left]
    simp only [List.mem_map, List.mem_filter, List.mem_reverse, decide_eq_true_eq]
    constructor
    · rintro ⟨a, ⟨ha, hao⟩, rfl⟩
      exact ⟨a, rfl, ha, hao⟩
    · rintro ⟨a, rfl, ha, hao⟩
      exact ⟨a, ⟨ha, hao⟩, rfl⟩
  · intro x
    rw [e1]
    exact hset working x
  · intro py2 working2 w2 r2 hperm hw2 hret2 x
    have hne2 : working2 ≠ [] := by
      intro e
      rw [e] at hperm
      exact hne (List.Perm.nil_eq hperm).symm
    have hnul2 : nul_free working2 := fun a ha => hnul a (hperm.mem_iff.1 ha)
    obtain ⟨g1, _⟩ := hfinal py2 working2 w2 r2 hne2 hnul2 hw2 hret2
    rw [g1, e1, hset working2 x, hset working x]
    constructor
    · rintro ⟨a, ha, rfl⟩
      exact ⟨a, hperm.mem_iff.1 ha, rfl⟩
    · rintro ⟨a, ha, rfl⟩
      exact ⟨a, hperm.mem_iff.2 ha, rfl⟩

/-- Worked example for C1: the store holds `a, b, c`, the entry point leaves
`[b, c, d]`; slot 0 is removed, `d` is added and the store ends as `b, c, d`. -/
theorem C1_witness :
    (host_of ["a", "b", "c"]).holds ["a", "b", "c"] ∧
    nul_free ["b", "c", "d"] ∧
    Returns exim_consts (py_with (script_setting ["b", "c", "d"] (some (PyObject.int 0))))
      (host_of ["a", "b", "c"]) 0 (some (address_list ["b", "c", "d"])) (PyObject.int 0) ∧
    (∀ x, x ∈ (local_scan exim_consts plain_runtime
                (py_with (script_setting ["b", "c", "d"] (some (PyObject.int 0))))
                (host_of ["a", "b", "c"]) 0 Option.none).host.recipients ↔
          ∃ a, a ∈ ["b", "c", "d"] ∧ x = some a) ∧
    (local_scan exim_consts plain_runtime
        (py_with (script_setting ["b", "c", "d"] (some (PyObject.int 0))))
        (host_of ["a", "b", "c"]) 0 Option.none).host.recipients
      = [some "b", some "c", some "d"] ∧
    (local_scan exim_consts plain_runtime
        (py_with (script_setting ["b", "c", "d"] (some (PyObject.int 0))))
        (host_of ["a", "b", "c"]) 0 Option.none).host.removed_calls = [(0, 3)] ∧
    (local_scan exim_consts plain_runtime
        (py_with (script_setting ["b", "c", "d"] (some (PyObject.int 0))))
        (host_of ["a", "b", "c"]) 0 Option.none).host.added_calls = [(some "d", -1)] :=
  ⟨⟨by decide, by decide, by decide⟩,
   by unfold nul_free; decide,
   ⟨_, _, rfl, rfl, rfl, rfl⟩,
   (C1_reconciliation_symmetric_diff exim_consts plain_runtime
      (py_with (script_setting ["b", "c", "d"] (some (PyObject.int 0))))
      (host_of ["a", "b", "c"]) 0 Option.none ["a", "b", "c"] ["b", "c", "d"]
      (address_list ["b", "c", "d"]) (PyObject.int 0)
      ⟨by decide, by decide, by decide⟩ (by decide) (by unfold nul_free; decide) (Or.inl rfl)
      ⟨_, _, rfl, rfl, rfl, rfl⟩).2.2.1,
   by decide⟩

/-! ## Decoding of the returned value -/

theorem int_of_long_of_range (n : Int) (hn : -2147483648 ≤ n ∧ n < 2147483648) :
    int_of_long n = n := by
  unfold int_of_long
  omega

theorem decode_result_int (k : HostConsts) (rt : PyRuntime) (py : PyState) (h : Host)
    (rt0 : Option String) (n : Int) :
    (decode_result k rt py h rt0 (PyObject.int n)).rc = int_of_long n ∧
    (decode_result k rt py h rt0 (PyObject.int n)).return_text = rt0 := by
  simp [decode_result, PySequence_Check, PyInt_Check, PyInt_AsLong]

theorem decode_result_pair (k : HostConsts) (rt : PyRuntime) (py : PyState) (h : Host)
    (rt0 : Option String) (n : Int) (m r : PyObject) (rest : List PyObject)
    (hr : r = PyObject.tuple (PyObject.int n :: m :: rest) ∨
          r = PyObject.list (PyObject.int n :: m :: rest)) :
    (decode_result k rt py h rt0 r).rc = int_of_long n ∧
    (decode_result k rt py h rt0 r).return_text = some (c_string (PyObject_Str rt m)) := by
  have h1 : (0 : Int) < (rest.length : Int) + 1 + 1 := by omega
  have h2 : (1 : Int) < (rest.length : Int) + 1 + 1 := by omega
  rcases hr with e | e <;> subst e <;>
    simp [decode_result, PySequence_Check, PySequence_Size, PySequence_GetItem, PyInt_Check,
      PyInt_AsLong, string_copy, PyString_AsString, h1, h2]

theorem decode_result_single (k : HostConsts) (rt : PyRuntime) (py : PyState) (h : Host)
    (rt0 : Option String) (n : Int) (r : PyObject)
    (hr : r = PyObject.tuple [PyObject.int n] ∨ r = PyObject.list [PyObject.int n]) :
    (decode_result k rt py h rt0 r).rc = int_of_long n ∧
    (decode_result k rt py h rt0 r).return_text = rt0 := by
  rcases hr with e | e <;> subst e <;>
    simp [decode_result, PySequence_Check, PySequence_Size, PySequence_GetItem, PyInt_Check,
      PyInt_AsLong]

/-- C4, as stated, fails, in two places.  A Python integer that does not fit
the C `int` returned by `local_scan` is not returned as such: the entry point
returns the bare integer 4294967298 and the disposition is 2.  The diagnostic
text is the stringification read through a `char *`, which ends at the first
NUL: the entry point returns the pair of 1 and the string `spam`, NUL,
`detected`, and the diagnostic text is `spam`. -/
theorem C4_counterexample :
    Returns exim_consts (py_with (script_returning (some (PyObject.int 4294967298))))
      (host_of ["a"]) 0 (some (address_list ["a"])) (PyObject.int 4294967298) ∧
    (local_scan exim_consts plain_runtime
        (py_with (script_returning (some (PyObject.int 4294967298))))
        (host_of ["a"]) 0 Option.none).rc = 2 ∧
    (local_scan exim_consts plain_runtime
        (py_with (script_returning (some (PyObject.int 4294967298))))
        (host_of ["a"]) 0 Option.none).rc ≠ 4294967298 ∧
    Returns exim_consts
      (py_with (script_returning
        (some (PyObject.tuple [PyObject.int 1, PyObject.str "spam\x00detected"]))))
      (host_of ["a"]) 0 (some (address_list ["a"]))
      (PyObject.tuple [PyObject.int 1, PyObject.str "spam\x00detected"]) ∧
    PyObject_Str plain_runtime (PyObject.str "spam\x00detected") = "spam\x00detected" ∧
    (local_scan exim_consts plain_runtime
        (py_with (script_returning
          (some (PyObject.tuple [PyObject.int 1, PyObject.str "spam\x00detected"]))))
        (host_of ["a"]) 0 Option.none).return_text = some "spam" ∧
    (local_scan exim_consts plain_runtime
        (py_with (script_returning
          (some (PyObject.tuple [PyObject.int 1, PyObject.str "spam\x00detected"]))))
        (host_of ["a"]) 0 Option.none).return_text ≠ some "spam\x00detected" :=
  ⟨⟨_, _, rfl, rfl, rfl, rfl⟩, by decide, by decide, ⟨_, _, rfl, rfl, rfl, rfl⟩, rfl,
   by decide, by decide⟩

/-- C4, amended (decode of well-formed results).  For every integer `n` in the
range of the C `int` and every object `m`: when the entry point returns the bare
integer `n`, `local_scan` returns `n` and leaves the diagnostic slot as it found
it; when it returns a tuple or list whose element 0 is `n` and element 1 is `m`,
whatever follows, `local_scan` returns `n` with the diagnostic text set to the
stringification of `m` (taken to succeed) as a C string, that is up to its
first NUL character, which is the whole stringification when it contains no
NUL; when it returns
the one-element tuple or list `(n)`, `local_scan` returns `n` and leaves the
diagnostic slot as it found it. -/
theorem C4_decode_well_formed (k : HostConsts) (rt : PyRuntime) (py : PyState) (h : Host)
    (fd : Int) (rt0 : Option String) (working : Option PyObject) (r : PyObject) (n : Int)
    (hn : -2147483648 ≤ n ∧ n < 2147483648)
    (hret : Returns k py h fd working r) :
    (r = PyObject.int n →
      (local_scan k rt py h fd rt0).rc = n ∧
      (local_scan k rt py h fd rt0).return_text = rt0) ∧
    (∀ (m : PyObject) (rest : List PyObject),
      (r = PyObject.tuple (PyObject.int n :: m :: rest) ∨
       r = PyObject.list (PyObject.int n :: m :: rest)) →
      (local_scan k rt py h fd rt0).rc = n ∧
      (local_scan k rt py h fd rt0).return_text = some (c_string (PyObject_Str rt m)) ∧
      ('\x00' ∉ (PyObject_Str rt m).data →
        (local_scan k rt py h fd rt0).return_text = some (PyObject_Str rt m))) ∧
    ((r = PyObject.tuple [PyObject.int n] ∨ r = PyObject.list [PyObject.int n]) →
      (local_scan k rt py h fd rt0).rc = n ∧
      (local_scan k rt py h fd rt0).return_text = rt0) := by
  obtain ⟨py2, hls⟩ := local_scan_of_returns k rt py h fd rt0 working r hret
  rw [hls]
  have hrange := int_of_long_of_range n hn
  refine ⟨?_, ?_, ?_⟩
  · intro e
    subst e
    have := decode_result_int k rt py2
      (reconcile (host_at_return k py h fd) (get_recipients h) working) rt0 n
    rw [hrange] at this
    exact this
  · intro m rest e
    have := decode_result_pair k rt py2
      (reconcile (host_at_return k py h fd) (get_recipients h) working) rt0 n m r rest e
    rw [hrange] at this
    refine ⟨this.1, this.2, ?_⟩
    intro hnul
    rw [this.2, c_string_of_nul_free _ hnul]
  · intro e
    have := decode_result_single k rt py2
      (reconcile (host_at_return k py h fd) (get_recipients h) working) rt0 n r e
    rw [hrange] at this
    exact this

/-- Worked examples for C4: the bare integer 2, and the pair
`(1, "spam detected")`. -/
theorem C4_witness :
    ((-2147483648 : Int) ≤ 2 ∧ (2 : Int) < 2147483648) ∧
    Returns exim_consts (py_with (script_returning (some (PyObject.int 2))))
      (host_of ["a"]) 0 (some (address_list ["a"])) (PyObject.int 2) ∧
    ((local_scan exim_consts plain_runtime (py_with (script_returning (some (PyObject.int 2))))
        (host_of ["a"]) 0 Option.none).rc = 2 ∧
     (local_scan exim_consts plain_runtime (py_with (script_returning (some (PyObject.int 2))))
        (host_of ["a"]) 0 Option.none).return_text = Option.none) ∧
    ((-2147483648 : Int) ≤ 1 ∧ (1 : Int) < 2147483648) ∧
    Returns exim_consts
      (py_with (script_returning
        (some (PyObject.tuple [PyObject.int 1, PyObject.str "spam detected"]))))
      (host_of ["a"]) 0 (some (address_list ["a"]))
      (PyObject.tuple [PyObject.int 1, PyObject.str "spam detected"]) ∧
    ((local_scan exim_consts plain_runtime
        (py_with (script_returning
          (some (PyObject.tuple [PyObject.int 1, PyObject.str "spam detected"]))))
        (host_of ["a"]) 0 Option.none).rc = 1 ∧
     (local_scan exim_consts plain_runtime
        (py_with (script_returning
          (some (PyObject.tuple [PyObject.int 1, PyObject.str "spam detected"]))))
        (host_of ["a"]) 0 Option.none).return_text = some "spam detected") :=
  ⟨by decide,
   ⟨_, _, rfl, rfl, rfl, rfl⟩,
   (C4_decode_well_formed exim_consts plain_runtime
      (py_with (script_returning (some (PyObject.int 2)))) (host_of ["a"]) 0 Option.none
      (some (address_list ["a"])) (PyObject.int 2) 2 (by decide)
      ⟨_, _, rfl, rfl, rfl, rfl⟩).1 rfl,
   by decide,
   ⟨_, _, rfl, rfl, rfl, rfl⟩,
   ⟨((C4_decode_well_formed exim_consts plain_runtime
      (py_with (script_returning
        (some (PyObject.tuple [PyObject.int 1, PyObject.str "spam detected"]))))
      (host_of ["a"]) 0 Option.none
      (some (address_list ["a"]))
      (PyObject.tuple [PyObject.int 1, PyObject.str "spam detected"]) 1 (by decide)
      ⟨_, _, rfl, rfl, rfl, rfl⟩).2.1 (PyObject.str "spam detected") [] (Or.inl rfl)).1,
    ((C4_decode_well_formed exim_consts plain_runtime
      (py_with (script_returning
        (some (PyObject.tuple [PyObject.int 1, PyObject.str "spam detected"]))))
      (host_of ["a"]) 0 Option.none
      (some (address_list ["a"]))
      (PyObject.tuple [PyObject.int 1, PyObject.str "spam detected"]) 1 (by decide)
      ⟨_, _, rfl, rfl, rfl, rfl⟩).2.1 (PyObject.str "spam detected") [] (Or.inl rfl)).2.2
      (by decide)⟩⟩

/-- C5, as stated, fails: the exception path returns before the reconciliation
block.  The store holds `a`; the entry point rebinds `recipients` to `[x]` and
raises; the store still holds `a`, whereas reconciling against `[x]` would
have left `x`. -/
theorem C5_counterexample :
    Raises exim_consts (py_with (script_setting ["x"] Option.none)) (host_of ["a"]) 0
      (some (address_list ["x"])) ∧
    (local_scan exim_consts plain_runtime (py_with (script_setting ["x"] Option.none))
        (host_of ["a"]) 0 Option.none).rc = PYTHON_FAILURE_RETURN exim_consts ∧
    (local_scan exim_consts plain_runtime (py_with (script_setting ["x"] Option.none))
        (host_of ["a"]) 0 Option.none).host.recipients = [some "a"] ∧
    (reconcile (host_of ["a"]) (get_recipients (host_of ["a"]))
        (some (address_list ["x"]))).recipients = [some "x"] ∧
    (local_scan exim_consts plain_runtime (py_with (script_setting ["x"] Option.none))
        (host_of ["a"]) 0 Option.none).host.removed_calls = [] ∧
    (local_scan exim_consts plain_runtime (py_with (script_setting ["x"] Option.none))
        (host_of ["a"]) 0 Option.none).host.added_calls = [] :=
  ⟨⟨_, _, rfl, rfl, rfl, rfl⟩, by decide, by decide, by decide, by decide, by decide⟩

/-- C5, amended (exception path).  When the entry point raises, whatever it
did to the working sequence before, `local_scan` returns the fallback
disposition with the fixed diagnostic text and performs no reconciliation:
the recipient array and count are those of the call start, and no removal or
addition call is made. -/
theorem C5_exception_skips_reconciliation (k : HostConsts) (rt : PyRuntime) (py : PyState)
    (h : Host) (fd : Int) (rt0 : Option String) (working : Option PyObject)
    (hraise : Raises k py h fd working) :
    (local_scan k rt py h fd rt0).rc = PYTHON_FAILURE_RETURN k ∧
    (local_scan k rt py h fd rt0).return_text =
      some "Internal error, local_scan function failed" ∧
    (local_scan k rt py h fd rt0).host.recipients_list = h.recipients_list ∧
    (local_scan k rt py h fd rt0).host.recipients_count = h.recipients_count ∧
    (local_scan k rt py h fd rt0).host.removed_calls = h.removed_calls ∧
    (local_scan k rt py h fd rt0).host.added_calls = h.added_calls := by
  obtain ⟨e1, e2, e3⟩ := local_scan_of_raises k rt py h fd rt0 working hraise
  obtain ⟨f1, f2, f3, f4⟩ := host_at_return_frame k py h fd
  rw [e3]
  exact ⟨e1, e2, f1, f2, f3, f4⟩

/-- Worked example for C5: the entry point rebinds `recipients` and raises. -/
theorem C5_witness :
    Raises exim_consts (py_with (script_setting ["x", "y"] Option.none)) (host_of ["a", "b"]) 0
      (some (address_list ["x", "y"])) ∧
    (local_scan exim_consts plain_runtime (py_with (script_setting ["x", "y"] Option.none))
        (host_of ["a", "b"]) 0 Option.none).rc = PYTHON_FAILURE_RETURN exim_consts ∧
    (local_scan exim_consts plain_runtime (py_with (script_setting ["x", "y"] Option.none))
        (host_of ["a", "b"]) 0 Option.none).host.recipients_count = 2 :=
  ⟨⟨_, _, rfl, rfl, rfl, rfl⟩,
   (C5_exception_skips_reconciliation exim_consts plain_runtime
      (py_with (script_setting ["x", "y"] Option.none)) (host_of ["a", "b"]) 0 Option.none
      (some (address_list ["x", "y"])) ⟨_, _, rfl, rfl, rfl, rfl⟩).1,
   (C5_exception_skips_reconciliation exim_consts plain_runtime
      (py_with (script_setting ["x", "y"] Option.none)) (host_of ["a", "b"]) 0 Option.none
      (some (address_list ["x", "y"])) ⟨_, _, rfl, rfl, rfl, rfl⟩).2.2.2.1⟩

theorem not_int_of_sequence (r : PyObject) (hs : PySequence_Check r = true) :
    PyInt_Check r = false := by
  cases r <;> simp_all [PySequence_Check, PyInt_Check]

theorem decode_result_malformed (k : HostConsts) (rt : PyRuntime) (py : PyState) (h : Host)
    (rt0 : Option String) (r : PyObject) (hbad : Malformed r) :
    (decode_result k rt py h rt0 r).rc = PYTHON_FAILURE_RETURN k ∧
    (decode_result k rt py h rt0 r).return_text = some "Internal error, bad return code" ∧
    (decode_result k rt py h rt0 r).host.log_written =
      h.log_written ++
        [(0, k.LOG_REJECT, "Python expy_local_scan module didn't return integer")] := by
  have key : PyInt_Check
      (if (PySequence_Check r && decide (PySequence_Size r > 0)) = true
       then (PySequence_GetItem r 0).getD PyObject.none else r) = false := by
    rcases hbad with ⟨hs, hz⟩ | ⟨hi, hs⟩ | ⟨hs, hpos, hfirst⟩
    · have : ¬ (PySequence_Size r > 0) := by omega
      simp [this, not_int_of_sequence r hs]
    · simp [hs, hi]
    · simp only [hs, hpos, decide_True, Bool.and_self, if_true]
      cases hg : PySequence_GetItem r 0 with
      | none => simp [PyInt_Check]
      | some first => simpa using hfirst first hg
  unfold decode_result
  simp only [key]
  simp [log_write]

/-- C6 (decode of malformed results).  Whenever the entry point returns an
empty sequence, a value that is neither an integer nor a sequence, or a
non-empty sequence whose element 0 is not an integer, `local_scan` returns
`PYTHON_FAILURE_RETURN`, the diagnostic text is the fixed string
"Internal error, bad return code", and exactly one entry, at `LOG_REJECT`, is
appended to the host log as the entry point left it. -/
theorem C6_decode_malformed (k : HostConsts) (rt : PyRuntime) (py : PyState) (h : Host)
    (fd : Int) (rt0 : Option String) (working : Option PyObject) (r : PyObject)
    (hret : Returns k py h fd working r) (hbad : Malformed r) :
    (local_scan k rt py h fd rt0).rc = PYTHON_FAILURE_RETURN k ∧
    (local_scan k rt py h fd rt0).return_text = some "Internal error, bad return code" ∧
    (local_scan k rt py h fd rt0).host.log_written =
      (host_at_return k py h fd).log_written ++
        [(0, k.LOG_REJECT, "Python expy_local_scan module didn't return integer")] := by
  obtain ⟨py2, hls⟩ := local_scan_of_returns k rt py h fd rt0 working r hret
  obtain ⟨d1, d2, d3⟩ := decode_result_malformed k rt py2
    (reconcile (host_at_return k py h fd) (get_recipients h) working) rt0 r hbad
  obtain ⟨g1, _⟩ := reconcile_frame (host_at_return k py h fd) (get_recipients h) working
  rw [hls]
  refine ⟨d1, d2, ?_⟩
  rw [d3, g1]

/-- Worked examples for C6: the empty tuple, a text string, `None`, and a
pair whose first element is a string. -/
theorem C6_witness :
    (Returns exim_consts (py_with (script_returning (some (PyObject.tuple []))))
      (host_of ["a"]) 0 (some (address_list ["a"])) (PyObject.tuple []) ∧
     Malformed (PyObject.tuple []) ∧
     (local_scan exim_consts plain_runtime (py_with (script_returning (some (PyObject.tuple []))))
        (host_of ["a"]) 0 Option.none).rc = PYTHON_FAILURE_RETURN exim_consts) ∧
    (Malformed (PyObject.str "oops") ∧
     (local_scan exim_consts plain_runtime
        (py_with (script_returning (some (PyObject.str "oops"))))
        (host_of ["a"]) 0 Option.none).return_text = some "Internal error, bad return code") ∧
    (Malformed PyObject.none ∧
     (local_scan exim_consts plain_runtime (py_with (script_returning (some PyObject.none)))
        (host_of ["a"]) 0 Option.none).rc = PYTHON_FAILURE_RETURN exim_consts) ∧
    (Malformed (PyObject.tuple [PyObject.str "1", PyObject.str "spam"]) ∧
     (local_scan exim_consts plain_runtime
        (py_with (script_returning
          (some (PyObject.tuple [PyObject.str "1", PyObject.str "spam"]))))
        (host_of ["a"]) 0 Option.none).return_text = some "Internal error, bad return code") :=
  ⟨⟨⟨_, _, rfl, rfl, rfl, rfl⟩, Or.inl ⟨rfl, rfl⟩,
    (C6_decode_malformed exim_consts plain_runtime
      (py_with (script_returning (some (PyObject.tuple [])))) (host_of ["a"]) 0 Option.none
      (some (address_list ["a"])) (PyObject.tuple []) ⟨_, _, rfl, rfl, rfl, rfl⟩
      (Or.inl ⟨rfl, rfl⟩)).1⟩,
   ⟨Or.inr (Or.inr ⟨rfl, by decide, by intro first hf; cases hf; rfl⟩),
    (C6_decode_malformed exim_consts plain_runtime
      (py_with (script_returning (some (PyObject.str "oops")))) (host_of ["a"]) 0 Option.none
      (some (address_list ["a"])) (PyObject.str "oops") ⟨_, _, rfl, rfl, rfl, rfl⟩
      (Or.inr (Or.inr ⟨rfl, by decide, by intro first hf; cases hf; rfl⟩))).2.1⟩,
   ⟨Or.inr (Or.inl ⟨rfl, rfl⟩),
    (C6_decode_malformed exim_consts plain_runtime
      (py_with (script_returning (some PyObject.none))) (host_of ["a"]) 0 Option.none
      (some (address_list ["a"])) PyObject.none ⟨_, _, rfl, rfl, rfl, rfl⟩
      (Or.inr (Or.inl ⟨rfl, rfl⟩))).1⟩,
   ⟨Or.inr (Or.inr ⟨rfl, by decide, by intro first hf; cases hf; rfl⟩),
    (C6_decode_malformed exim_consts plain_runtime
      (py_with (script_returning
        (some (PyObject.tuple [PyObject.str "1", PyObject.str "spam"]))))
      (host_of ["a"]) 0 Option.none
      (some (address_list ["a"])) (PyObject.tuple [PyObject.str "1", PyObject.str "spam"])
      ⟨_, _, rfl, rfl, rfl, rfl⟩
      (Or.inr (Or.inr ⟨rfl, by decide, by intro first hf; cases hf; rfl⟩))).2.1⟩⟩

/-- C7 (reconciliation clear law).  When the entry point returns and the name
`recipients` is then absent from the module dictionary, or bound to an object
that is not a sequence, or bound to a sequence of length zero, the host
recipient count becomes 0, so that no original recipient is left, and no
recipient is added. -/
theorem C7_reconciliation_clear (k : HostConsts) (rt : PyRuntime) (py : PyState) (h : Host)
    (fd : Int) (rt0 : Option String) (working : Option PyObject) (r : PyObject)
    (hret : Returns k py h fd working r)
    (hclear : working = Option.none ∨
      ∃ w, working = some w ∧ (PySequence_Check w = false ∨ PySequence_Size w = 0)) :
    (local_scan k rt py h fd rt0).host.recipients_count = 0 ∧
    (local_scan k rt py h fd rt0).host.recipients = [] ∧
    (local_scan k rt py h fd rt0).host.added_calls = h.added_calls := by
  obtain ⟨py2, hls⟩ := local_scan_of_returns k rt py h fd rt0 working r hret
  obtain ⟨_, d2, _, d4⟩ := decode_result_frame k rt py2
    (reconcile (host_at_return k py h fd) (get_recipients h) working) rt0 r
  obtain ⟨_, _, _, f4⟩ := host_at_return_frame k py h fd
  have hrec := reconcile_cleared (host_at_return k py h fd) (get_recipients h) working hclear
  have hcount : (local_scan k rt py h fd rt0).host.recipients_count = 0 := by
    rw [hls, d2, hrec]
  refine ⟨hcount, ?_, ?_⟩
  · unfold Host.recipients
    rw [hcount]
    simp
  · rw [hls, d4, hrec]
    exact f4

/-- Worked examples for C7: the name deleted, rebound to an integer, and
rebound to the empty list. -/
theorem C7_witness :
    (Returns exim_consts (py_with (script_deleting (some (PyObject.int 0))))
      (host_of ["a", "b"]) 0 Option.none (PyObject.int 0) ∧
     (local_scan exim_consts plain_runtime (py_with (script_deleting (some (PyObject.int 0))))
        (host_of ["a", "b"]) 0 Option.none).host.recipients_count = 0) ∧
    (Returns exim_consts (py_with (script_binding (PyObject.int 7) (some (PyObject.int 0))))
      (host_of ["a", "b"]) 0 (some (PyObject.int 7)) (PyObject.int 0) ∧
     (local_scan exim_consts plain_runtime
        (py_with (script_binding (PyObject.int 7) (some (PyObject.int 0))))
        (host_of ["a", "b"]) 0 Option.none).host.recipients_count = 0) ∧
    (Returns exim_consts (py_with (script_setting [] (some (PyObject.int 0))))
      (host_of ["a", "b"]) 0 (some (address_list [])) (PyObject.int 0) ∧
     (local_scan exim_consts plain_runtime (py_with (script_setting [] (some (PyObject.int 0))))
        (host_of ["a", "b"]) 0 Option.none).host.recipients = []) :=
  ⟨⟨⟨_, _, rfl, rfl, rfl, rfl⟩,
    (C7_reconciliation_clear exim_consts plain_runtime
      (py_with (script_deleting (some (PyObject.int 0)))) (host_of ["a", "b"]) 0 Option.none
      Option.none (PyObject.int 0) ⟨_, _, rfl, rfl, rfl, rfl⟩ (Or.inl rfl)).1⟩,
   ⟨⟨_, _, rfl, rfl, rfl, rfl⟩,
    (C7_reconciliation_clear exim_consts plain_runtime
      (py_with (script_binding (PyObject.int 7) (some (PyObject.int 0))))
      (host_of ["a", "b"]) 0 Option.none
      (some (PyObject.int 7)) (PyObject.int 0) ⟨_, _, rfl, rfl, rfl, rfl⟩
      (Or.inr ⟨_, rfl, Or.inl rfl⟩)).1⟩,
   ⟨⟨_, _, rfl, rfl, rfl, rfl⟩,
    (C7_reconciliation_clear exim_consts plain_runtime
      (py_with (script_setting [] (some (PyObject.int 0))))
      (host_of ["a", "b"]) 0 Option.none
      (some (address_list [])) (PyObject.int 0) ⟨_, _, rfl, rfl, rfl, rfl⟩
      (Or.inr ⟨_, rfl, Or.inr rfl⟩)).2.1⟩⟩

/-- C8 (reconciliation no-op law).  When the entry point returns and the
sequence bound to `recipients` holds, element for element, the addresses the
host store held at call start (the store may be empty or hold duplicates), no
removal call and no addition call is made, and the recipient array and count
are exactly those of the call start. -/
theorem C8_reconciliation_noop (k : HostConsts) (rt : PyRuntime) (py : PyState) (h : Host)
    (fd : Int) (rt0 : Option String) (original : List String) (w r : PyObject)
    (hstore : h.holds original) (hw : IsAddressSeq w original)
    (hret : Returns k py h fd (some w) r) :
    (local_scan k rt py h fd rt0).host.removed_calls = h.removed_calls ∧
    (local_scan k rt py h fd rt0).host.added_calls = h.added_calls ∧
    (local_scan k rt py h fd rt0).host.recipients_list = h.recipients_list ∧
    (local_scan k rt py h fd rt0).host.recipients_count = h.recipients_count ∧
    (local_scan k rt py h fd rt0).host.recipients = original.map some := by
  obtain ⟨py2, hls⟩ := local_scan_of_returns k rt py h fd rt0 (some w) r hret
  have hrec := reconcile_untouched (host_at_return k py h fd) original w
    (host_at_return_holds k py h fd original hstore) hw
  rw [get_recipients_of_holds h original hstore, hrec] at hls
  obtain ⟨d1, d2, d3, d4⟩ := decode_result_frame k rt py2 (host_at_return k py h fd) rt0 r
  obtain ⟨f1, f2, f3, f4⟩ := host_at_return_frame k py h fd
  rw [hls]
  refine ⟨d3.trans f3, d4.trans f4, d1.trans f1, d2.trans f2, ?_⟩
  rw [decode_result_recipients]
  exact (host_at_return_holds k py h fd original hstore).2.2

/-- Worked examples for C8: a store with a duplicate address that the entry
point does not touch, and an empty store. -/
theorem C8_witness :
    ((host_of ["a", "b", "a"]).holds ["a", "b", "a"] ∧
     Returns exim_consts (py_with (script_returning (some (PyObject.int 0))))
       (host_of ["a", "b", "a"]) 0 (some (address_list ["a", "b", "a"])) (PyObject.int 0) ∧
     (local_scan exim_consts plain_runtime (py_with (script_returning (some (PyObject.int 0))))
        (host_of ["a", "b", "a"]) 0 Option.none).host.recipients =
       [some "a", some "b", some "a"]) ∧
    ((host_of []).holds [] ∧
     Returns exim_consts (py_with (script_returning (some (PyObject.int 0))))
       (host_of []) 0 (some (address_list [])) (PyObject.int 0) ∧
     (local_scan exim_consts plain_runtime (py_with (script_returning (some (PyObject.int 0))))
        (host_of []) 0 Option.none).host.recipients_count = 0) :=
  ⟨⟨⟨by decide, by decide, by decide⟩, ⟨_, _, rfl, rfl, rfl, rfl⟩,
    (C8_reconciliation_noop exim_consts plain_runtime
      (py_with (script_returning (some (PyObject.int 0)))) (host_of ["a", "b", "a"]) 0
      Option.none ["a", "b", "a"] (address_list ["a", "b", "a"]) (PyObject.int 0)
      ⟨by decide, by decide, by decide⟩ (Or.inl rfl) ⟨_, _, rfl, rfl, rfl, rfl⟩).2.2.2.2⟩,
   ⟨⟨by decide, by decide, by decide⟩, ⟨_, _, rfl, rfl, rfl, rfl⟩,
    (C8_reconciliation_noop exim_consts plain_runtime
      (py_with (script_returning (some (PyObject.int 0)))) (host_of []) 0
      Option.none [] (address_list []) (PyObject.int 0)
      ⟨by decide, by decide, by decide⟩ (Or.inl rfl) ⟨_, _, rfl, rfl, rfl, rfl⟩).2.2.2.1⟩⟩

theorem count_map_of_inj {α β : Type} [BEq α] [LawfulBEq α] [BEq β] [LawfulBEq β]
    (f : α → β) (hf : Function.Injective f) (l : List α) (x : α) :
    (l.map f).count (f x) = l.count x := by
  induction l with
  | nil => simp
  | cons a t ih =>
    by_cases hax : a = x
    · subst hax
      simp [ih]
    · have hfa : ¬ (f a = f x) := fun e => hax (hf e)
      simp [List.count_cons, ih, hax, hfa]

/-- C9, as stated, fails: what is appended for a working entry is the entry
read through a `char *`, which ends at the first NUL.  The store holds `a`;
the entry point leaves `a` and two copies of the string `x`, NUL, `y`; that
string is new to the original sequence and occurs twice in the working
sequence, yet it is appended zero times: `x` is appended twice and the store
ends as `a, x, x`. -/
theorem C9_counterexample :
    (host_of ["a"]).holds ["a"] ∧
    Returns exim_consts
      (py_with (script_setting ["a", "x\x00y", "x\x00y"] (some (PyObject.int 0))))
      (host_of ["a"]) 0 (some (address_list ["a", "x\x00y", "x\x00y"])) (PyObject.int 0) ∧
    "x\x00y" ∉ ["a"] ∧
    ["a", "x\x00y", "x\x00y"].count "x\x00y" = 2 ∧
    (local_scan exim_consts plain_runtime
        (py_with (script_setting ["a", "x\x00y", "x\x00y"] (some (PyObject.int 0))))
        (host_of ["a"]) 0 Option.none).host.added_calls =
      [(some "x", -1), (some "x", -1)] ∧
    (local_scan exim_consts plain_runtime
        (py_with (script_setting ["a", "x\x00y", "x\x00y"] (some (PyObject.int 0))))
        (host_of ["a"]) 0 Option.none).host.recipients = [some "a", some "x", some "x"] ∧
    (local_scan exim_consts plain_runtime
        (py_with (script_setting ["a", "x\x00y", "x\x00y"] (some (PyObject.int 0))))
        (host_of ["a"]) 0 Option.none).host.recipients.count (some "x\x00y") = 0 :=
  ⟨⟨by decide, by decide, by decide⟩, ⟨_, _, rfl, rfl, rfl, rfl⟩, by decide, by decide,
   by decide, by decide, by decide⟩

/-- C9, amended (duplicate-add quirk).  When the entry point returns and leaves
a non-empty sequence of addresses `working` under `recipients`, the addition
calls are exactly one per position of `working` holding an address that does
not occur in the original sequence, taken from the last position to the
first, each for that address read as a C string (up to its first NUL
character).  When no address of `working` contains a NUL character, the
addresses added are those of `working` themselves; hence an address new to the
original sequence is in the final store as many times as it occurs in
`working`, while an address of the original sequence that occurs in `working`,
however often, is in the final store exactly as many times as it was at call
start. -/
theorem C9_duplicate_add (k : HostConsts) (rt : PyRuntime) (py : PyState) (h : Host)
    (fd : Int) (rt0 : Option String) (original working : List String) (w r : PyObject)
    (hstore : h.holds original) (hne : working ≠ []) (hw : IsAddressSeq w working)
    (hret : Returns k py h fd (some w) r) :
    ((local_scan k rt py h fd rt0).host.added_calls =
        h.added_calls ++
          (working.reverse.filter (fun a => decide (a ∉ original))).map
            (fun a => (some (c_string a), (-1 : Int))) ∧
     ((local_scan k rt py h fd rt0).host.added_calls.drop h.added_calls.length).length =
        (working.filter (fun a => decide (a ∉ original))).length) ∧
    (nul_free working →
      (local_scan k rt py h fd rt0).host.added_calls =
        h.added_calls ++
          (working.reverse.filter (fun a => decide (a ∉ original))).map
            (fun a => (some a, (-1 : Int))) ∧
      (∀ x, x ∉ original →
        ((local_scan k rt py h fd rt0).host.added_calls.drop h.added_calls.length).count
            (some x, (-1 : Int)) = working.count x ∧
        (local_scan k rt py h fd rt0).host.recipients.count (some x) = working.count x) ∧
      (∀ x, x ∈ original → x ∈ working →
        ((local_scan k rt py h fd rt0).host.added_calls.drop h.added_calls.length).count
            (some x, (-1 : Int)) = 0 ∧
        (local_scan k rt py h fd rt0).host.recipients.count (some x) = original.count x)) := by
  obtain ⟨g1, _, g3⟩ :=
    local_scan_reconciled k rt py h fd rt0 original working w r hstore hne hw hret
  refine ⟨⟨g3, ?_⟩, ?_⟩
  · rw [g3, List.drop_left, List.length_map, List.filter_reverse, List.length_reverse]
  intro hnul
  have e3 : (local_scan k rt py h fd rt0).host.added_calls =
      h.added_calls ++
        (working.reverse.filter (fun a => decide (a ∉ original))).map
          (fun a => (some a, (-1 : Int))) := by
    rw [g3, map_c_string_call_of_nul_free _ (nul_free_filter working _ hnul)]
  have e1 : (local_scan k rt py h fd rt0).host.recipients =
      (original.filter (fun a => decide (a ∈ working)) ++
        working.reverse.filter (fun a => decide (a ∉ original))).map some := by
    rw [g1, map_c_string_of_nul_free _ (nul_free_filter working _ hnul), List.map_append]
  have hinj1 : Function.Injective (fun a : String => (some a, (-1 : Int))) := by
    intro a b hab
    simpa using hab
  have hinj2 : Function.Injective (some : String → Option String) := by
    intro a b hab
    exact Option.some.inj hab
  have hadd : ∀ x, ((local_scan k rt py h fd rt0).host.added_calls.drop
        h.added_calls.length).count (some x, (-1 : Int)) =
      (working.reverse.filter (fun a => decide (a ∉ original))).count x := by
    intro x
    rw [e3, List.drop_left]
    exact count_map_of_inj _ hinj1 _ x
  have hrec : ∀ x, (local_scan k rt py h fd rt0).host.recipients.count (some x) =
      (original.filter (fun a => decide (a ∈ working))).count x +
        (working.reverse.filter (fun a => decide (a ∉ original))).count x := by
    intro x
    rw [e1, count_map_of_inj _ hinj2 _ x, List.count_append]
  refine ⟨e3, ?_, ?_⟩
  · intro x hx
    have h1 : (working.reverse.filter (fun a => decide (a ∉ original))).count x =
        working.count x := by
      rw [List.count_filter (by simpa using hx), List.count_reverse]
    have h2 : (original.filter (fun a => decide (a ∈ working))).count x = 0 := by
      apply List.count_eq_zero.2
      intro hmem
      exact hx (List.mem_filter.1 hmem).1
    rw [hadd, hrec, h1, h2]
    simp
  · intro x hxo hxw
    have h1 : (working.reverse.filter (fun a => decide (a ∉ original))).count x = 0 := by
      apply List.count_eq_zero.2
      intro hmem
      have := (List.mem_filter.1 hmem).2
      simp at this
      exact this hxo
    have h2 : (original.filter (fun a => decide (a ∈ working))).count x = original.count x := by
      rw [List.count_filter (by simpa using hxw)]
    rw [hadd, hrec, h1, h2]
    simp

/-- Worked example for C9: the store holds `a`, the entry point leaves
`[a, x, x]`, and the store ends as `a, x, x`. -/
theorem C9_witness :
    (host_of ["a"]).holds ["a"] ∧
    nul_free ["a", "x", "x"] ∧
    Returns exim_consts (py_with (script_setting ["a", "x", "x"] (some (PyObject.int 0))))
      (host_of ["a"]) 0 (some (address_list ["a", "x", "x"])) (PyObject.int 0) ∧
    (local_scan exim_consts plain_runtime
        (py_with (script_setting ["a", "x", "x"] (some (PyObject.int 0))))
        (host_of ["a"]) 0 Option.none).host.added_calls =
      [(some "x", -1), (some "x", -1)] ∧
    (local_scan exim_consts plain_runtime
        (py_with (script_setting ["a", "x", "x"] (some (PyObject.int 0))))
        (host_of ["a"]) 0 Option.none).host.recipients = [some "a", some "x", some "x"] :=
  ⟨⟨by decide, by decide, by decide⟩, by unfold nul_free; decide, ⟨_, _, rfl, rfl, rfl, rfl⟩,
   ((C9_duplicate_add exim_consts plain_runtime
      (py_with (script_setting ["a", "x", "x"] (some (PyObject.int 0))))
      (host_of ["a"]) 0 Option.none ["a"] ["a", "x", "x"] (address_list ["a", "x", "x"])
      (PyObject.int 0) ⟨by decide, by decide, by decide⟩ (by decide) (Or.inl rfl)
      ⟨_, _, rfl, rfl, rfl, rfl⟩).2 (by unfold nul_free; decide)).1,
   by decide⟩

/-- C10, evaluated on the code.  With the store holding `a` and an empty log:
a failed import, a module without entry point and an undecodable return value
each leave one fixed message at `LOG_REJECT` in the host log; an entry point
that raises leaves the log empty, although the fallback disposition is
returned with the fixed diagnostic text. -/
theorem C10_exception_path_writes_no_log :
    (local_scan exim_consts plain_runtime
        { expy_exim_dict := Option.none, expy_user_module := Option.none,
          importable := Option.none }
        (host_of ["a"]) 0 Option.none).host.log_written =
      [(0, exim_consts.LOG_REJECT, "Couldn't import 'expy_local_scan' module")] ∧
    (local_scan exim_consts plain_runtime
        { expy_exim_dict := Option.none, expy_user_module := Option.none,
          importable := some { local_scan := Option.none } }
        (host_of ["a"]) 0 Option.none).host.log_written =
      [(0, exim_consts.LOG_REJECT,
        "Python expy_local_scan module doesn't have a 'local_scan' function")] ∧
    (local_scan exim_consts plain_runtime (py_with (script_returning (some PyObject.none)))
        (host_of ["a"]) 0 Option.none).host.log_written =
      [(0, exim_consts.LOG_REJECT, "Python expy_local_scan module didn't return integer")] ∧
    Raises exim_consts (py_with (script_returning Option.none)) (host_of ["a"]) 0
      (some (address_list ["a"])) ∧
    (local_scan exim_consts plain_runtime (py_with (script_returning Option.none))
        (host_of ["a"]) 0 Option.none).rc = PYTHON_FAILURE_RETURN exim_consts ∧
    (local_scan exim_consts plain_runtime (py_with (script_returning Option.none))
        (host_of ["a"]) 0 Option.none).return_text =
      some "Internal error, local_scan function failed" ∧
    (local_scan exim_consts plain_runtime (py_with (script_returning Option.none))
        (host_of ["a"]) 0 Option.none).host.log_written = [] :=
  ⟨by decide, by decide, by decide, ⟨_, _, rfl, rfl, rfl, rfl⟩, by decide, by decide,
   by decide⟩

/-! ## The string safety transform against its reference text -/

theorem copy_escaped_eq_flatMap (l : List Char) :
    copy_escaped l = l.flatMap (fun c => if c = '%' then ['%', '%'] else [c]) := by
  induction l with
  | nil => rfl
  | cons a t ih =>
    by_cases h : a = '%'
    · subst h
      simp [copy_escaped, ih]
    · simp [copy_escaped, h, ih]

/-- C11 (safety-transform reference definition).  For every string `x` and
every flag value, `get_format_string(x, flag)` is `x` with every percent
character doubled, followed by one line feed exactly when the flag is set and
`x` does not end with a line feed (the empty string does not); its length is
the length of `x` plus the number of percent characters of `x` plus 1 or 0
accordingly; and it is `x` itself when `x` has no percent character and the
flag is clear or `x` ends with a line feed. -/
theorem C11_reference_definition (x : String) (need_newline : Int) :
    get_format_string x need_newline = sanitize_reference x (decide (need_newline ≠ 0)) ∧
    (get_format_string x need_newline).length =
      x.length + percent_count x +
        (if need_newline ≠ 0 ∧ x.data.getLast? ≠ some '\n' then 1 else 0) ∧
    get_format_string "" 1 = "\n" ∧
    (percent_count x = 0 → (need_newline = 0 ∨ x.data.getLast? = some '\n') →
      get_format_string x need_newline = x) := by
  refine ⟨?_, ?_, by decide, ?_⟩
  · unfold get_format_string sanitize_reference
    rw [get_format_chars_eq, copy_escaped_eq_flatMap]
    simp
  · unfold get_format_string percent_count
    show (get_format_chars x.data need_newline).length = x.data.length + _ + _
    rw [get_format_chars_eq, List.length_append, length_copy_escaped]
    by_cases hc : need_newline ≠ 0 ∧ x.data.getLast? ≠ some '\n'
    · rw [if_pos hc, if_pos hc]; rfl
    · rw [if_neg hc, if_neg hc]; rfl
  · intro hp hflag
    unfold percent_count at hp
    have hnot : '%' ∉ x.data := List.count_eq_zero.1 hp
    have hc : ¬ (need_newline ≠ 0 ∧ x.data.getLast? ≠ some '\n') := by
      rintro ⟨h1, h2⟩
      rcases hflag with e | e
      · exact h1 e
      · exact h2 e
    unfold get_format_string
    rw [get_format_chars_eq, if_neg hc, copy_escaped_of_not_mem _ hnot]
    simp

/-- Worked examples for C11: a text with a percent character and no line
feed, and a text that the transform returns unchanged. -/
theorem C11_witness :
    get_format_string "100% sure" 1 = "100%% sure\n" ∧
    (percent_count "ok\n" = 0 ∧ ("ok\n".data.getLast? = some '\n') ∧
      get_format_string "ok\n" 1 = "ok\n") :=
  ⟨(C11_reference_definition "100% sure" 1).1.trans (by decide),
   by decide, by decide,
   (C11_reference_definition "ok\n" 1).2.2.2 (by decide) (Or.inr (by decide))⟩

/-- C12, as stated, fails: the transform keeps the line feeds the text ends
with.  For `a` followed by two line feeds the output is the input, whose last
two characters are both line feeds. -/
theorem C12_counterexample :
    get_format_string "a\n\n" 1 = "a\n\n" ∧
    (get_format_string "a\n\n" 1).data.getLast? = some '\n' ∧
    (get_format_string "a\n\n" 1).data.dropLast.getLast? = some '\n' := by
  decide

/-- C12, amended (safety-transform trailing newline).  For every string `x`,
the last character of `get_format_string(x, 1)` is a line feed, and the
character before that last one is a line feed exactly when `x` itself ends
with two line feeds: the transform appends one line feed when `x` does not end
with one and otherwise leaves the end of `x` as it is. -/
theorem C12_trailing_newline (x : String) :
    (get_format_string x 1).data.getLast? = some '\n' ∧
    ((get_format_string x 1).data.dropLast.getLast? = some '\n' ↔
      (x.data.getLast? = some '\n' ∧ x.data.dropLast.getLast? = some '\n')) ∧
    (get_format_string x 1).data =
      copy_escaped x.data ++ (if x.data.getLast? = some '\n' then [] else ['\n']) := by
  have hform : (get_format_string x 1).data =
      copy_escaped x.data ++ (if x.data.getLast? = some '\n' then [] else ['\n']) := by
    show get_format_chars x.data 1 = _
    rw [get_format_chars_eq]
    by_cases hl : x.data.getLast? = some '\n' <;> simp [hl]
  refine ⟨getLast_get_format_chars x.data 1 (by decide), ?_, hform⟩
  rw [hform]
  by_cases hl : x.data.getLast? = some '\n'
  · rw [if_pos hl, List.append_nil]
    obtain ⟨t, ht⟩ : ∃ t, x.data = t ++ ['\n'] := by
      rcases List.eq_nil_or_concat x.data with e | ⟨t, b, e⟩
      · rw [e] at hl; simp at hl
      · rw [e] at hl
        simp at hl
        exact ⟨t, by rw [e, hl]; simp⟩
    rw [ht, copy_escaped_append]
    have hc : copy_escaped ['\n'] = ['\n'] := by decide
    rw [hc, List.dropLast_concat, List.dropLast_concat, getLast_copy_escaped]
    simp
  · rw [if_neg hl, List.dropLast_concat, getLast_copy_escaped]
    simp [hl]

/-! ## Escaping is lossless -/

theorem collapse_copy_escaped (l : List Char) :
    collapse_percent (copy_escaped l) = l := by
  induction l with
  | nil => rfl
  | cons a t ih =>
    by_cases h : a = '%'
    · subst h
      simp [copy_escaped, collapse_percent, ih]
    · simp only [copy_escaped, if_neg h]
      cases hc : copy_escaped t with
      | nil =>
        rw [hc] at ih
        simp [collapse_percent, ← ih]
      | cons d r =>
        rw [hc] at ih
        simp [collapse_percent, h, ih]

/-- C19 (escaping is lossless).  For every string `x`, collapsing each `%%`
pair of `get_format_string(x, 0)` left to right gives back `x`; hence
`get_format_string(., 0)` is injective; and collapsing
`get_format_string(x, 1)` gives `x` when `x` ends with a line feed and `x`
followed by one line feed otherwise. -/
theorem C19_escaping_lossless (x : String) :
    collapse_percent (get_format_string x 0).data = x.data ∧
    (∀ y : String, get_format_string x 0 = get_format_string y 0 → x = y) ∧
    collapse_percent (get_format_string x 1).data =
      (if x.data.getLast? = some '\n' then x.data else x.data ++ ['\n']) := by
  have h0 : ∀ z : String, collapse_percent (get_format_string z 0).data = z.data := by
    intro z
    show collapse_percent (get_format_chars z.data 0) = z.data
    rw [get_format_chars_eq]
    simp [collapse_copy_escaped]
  refine ⟨h0 x, ?_, ?_⟩
  · intro y hxy
    have := h0 x
    rw [hxy, h0 y] at this
    exact String.ext this.symm
  · show collapse_percent (get_format_chars x.data 1) = _
    obtain ⟨m, hm⟩ : ∃ m : List Char, get_format_chars x.data 1 = copy_escaped m ∧
        m = (if x.data.getLast? = some '\n' then x.data else x.data ++ ['\n']) := by
      rw [get_format_chars_eq]
      by_cases hl : x.data.getLast? = some '\n'
      · exact ⟨x.data, by simp [hl], by simp [hl]⟩
      · refine ⟨x.data ++ ['\n'], ?_, by simp [hl]⟩
        rw [copy_escaped_append]
        have hc : copy_escaped ['\n'] = ['\n'] := by decide
        simp [hl, hc]
    rw [hm.1, collapse_copy_escaped, hm.2]

/-- Worked example for C19: a text with percent characters, with and without
the line feed being asked for. -/
theorem C19_witness :
    collapse_percent (get_format_string "50% of 100%" 0).data = "50% of 100%".data ∧
    get_format_string "50% of 100%" 0 = "50%% of 100%%" ∧
    collapse_percent (get_format_string "50% of 100%" 1).data = "50% of 100%\n".data :=
  ⟨(C19_escaping_lossless "50% of 100%").1, by decide,
   (C19_escaping_lossless "50% of 100%").2.2.trans (by decide)⟩

/-! ## The four ways a call can end -/

theorem local_scan_paths (k : HostConsts) (py : PyState) (h : Host) (fd : Int) :
    py.module = Option.none ∨
    (∃ m, py.module = some m ∧ m.local_scan = Option.none) ∨
    (∃ working, Raises k py h fd working) ∨
    (∃ working r, Returns k py h fd working r) := by
  cases hm : py.module with
  | none => exact Or.inl rfl
  | some m =>
    cases hf : m.local_scan with
    | none => exact Or.inr (Or.inl ⟨m, rfl, hf⟩)
    | some f =>
      cases hr : (call_user_func k py h fd f).result with
      | none => exact Or.inr (Or.inr (Or.inl ⟨_, m, f, hm, hf, hr, rfl⟩))
      | some r => exact Or.inr (Or.inr (Or.inr ⟨_, r, m, f, hm, hf, hr, rfl⟩))

theorem local_scan_of_import_failure (k : HostConsts) (rt : PyRuntime) (py : PyState)
    (h : Host) (fd : Int) (rt0 : Option String) (hm : py.module = Option.none) :
    (local_scan k rt py h fd rt0).rc = PYTHON_FAILURE_RETURN k ∧
    (local_scan k rt py h fd rt0).return_text = some "Internal error, missing module" ∧
    (local_scan k rt py h fd rt0).host =
      log_write h 0 k.LOG_REJECT "Couldn't import 'expy_local_scan' module" := by
  unfold local_scan
  simp only [hm]
  simp

theorem local_scan_of_missing_function (k : HostConsts) (rt : PyRuntime) (py : PyState)
    (h : Host) (fd : Int) (rt0 : Option String) (m : UserModule)
    (hm : py.module = some m) (hf : m.local_scan = Option.none) :
    (local_scan k rt py h fd rt0).rc = PYTHON_FAILURE_RETURN k ∧
    (local_scan k rt py h fd rt0).return_text = some "Internal error, missing function" ∧
    (local_scan k rt py h fd rt0).host =
      log_write h 0 k.LOG_REJECT
        "Python expy_local_scan module doesn't have a 'local_scan' function" := by
  unfold local_scan
  simp only [hm, hf]
  simp

theorem decode_result_rc (k : HostConsts) (rt : PyRuntime) (py : PyState) (h : Host)
    (rt0 : Option String) (r : PyObject) :
    (decode_result k rt py h rt0 r).rc = PYTHON_FAILURE_RETURN k ∨
    ∃ n, (r = PyObject.int n ∨
          (PySequence_Check r = true ∧ PySequence_GetItem r 0 = some (PyObject.int n))) ∧
      (decode_result k rt py h rt0 r).rc = int_of_long n := by
  unfold decode_result
  simp only
  by_cases hu : (PySequence_Check r && decide (PySequence_Size r > 0)) = true
  · simp only [hu, if_true]
    cases hg : PySequence_GetItem r 0 with
    | none => left; simp [PyInt_Check]
    | some first =>
      cases first with
      | int n =>
        right
        refine ⟨n, Or.inr ⟨?_, rfl⟩, ?_⟩
        · simp at hu; exact hu.1
        · simp [PyInt_Check, PyInt_AsLong]
      | _ => left; simp [PyInt_Check]
  · simp only [hu]
    cases r with
    | int n =>
      right
      exact ⟨n, Or.inl rfl, by simp [PyInt_Check, PyInt_AsLong]⟩
    | _ => left; simp [PyInt_Check]

/-- C13, as stated, fails: the integer the entry point returns is handed to
the host as it is.  With the constants 0, 3 and 5 for accept, reject and
temporary reject, an entry point returning 42 makes `local_scan` return 42;
and whatever the three constants are, some entry point makes `local_scan`
return an integer that is none of them. -/
theorem C13_counterexample :
    (local_scan exim_consts plain_runtime (py_with (script_returning (some (PyObject.int 42))))
        (host_of ["a"]) 0 Option.none).rc = 42 ∧
    (42 : Int) ≠ exim_consts.LOCAL_SCAN_ACCEPT ∧
    (42 : Int) ≠ exim_consts.LOCAL_SCAN_REJECT ∧
    (42 : Int) ≠ exim_consts.LOCAL_SCAN_TEMPREJECT ∧
    (∀ k : HostConsts, ∃ n : Int,
      (local_scan k plain_runtime (py_with (script_returning (some (PyObject.int n))))
        (host_of ["a"]) 0 Option.none).rc = n ∧
      n ≠ k.LOCAL_SCAN_ACCEPT ∧ n ≠ k.LOCAL_SCAN_REJECT ∧ n ≠ k.LOCAL_SCAN_TEMPREJECT) := by
  refine ⟨by decide, by decide, by decide, by decide, ?_⟩
  intro k
  have hrc : ∀ n : Int, -2147483648 ≤ n ∧ n < 2147483648 →
      (local_scan k plain_runtime (py_with (script_returning (some (PyObject.int n))))
        (host_of ["a"]) 0 Option.none).rc = n := by
    intro n hn
    obtain ⟨py2, hls⟩ := local_scan_of_returns k plain_runtime
      (py_with (script_returning (some (PyObject.int n)))) (host_of ["a"]) 0 Option.none
      _ (PyObject.int n) ⟨_, _, rfl, rfl, rfl, rfl⟩
    rw [hls, (decode_result_int k plain_runtime py2 _ Option.none n).1]
    exact int_of_long_of_range n hn
  by_cases h0 : (0 : Int) ≠ k.LOCAL_SCAN_ACCEPT ∧ (0 : Int) ≠ k.LOCAL_SCAN_REJECT ∧
      (0 : Int) ≠ k.LOCAL_SCAN_TEMPREJECT
  · exact ⟨0, hrc 0 (by decide), h0⟩
  by_cases h1 : (1 : Int) ≠ k.LOCAL_SCAN_ACCEPT ∧ (1 : Int) ≠ k.LOCAL_SCAN_REJECT ∧
      (1 : Int) ≠ k.LOCAL_SCAN_TEMPREJECT
  · exact ⟨1, hrc 1 (by decide), h1⟩
  by_cases h2 : (2 : Int) ≠ k.LOCAL_SCAN_ACCEPT ∧ (2 : Int) ≠ k.LOCAL_SCAN_REJECT ∧
      (2 : Int) ≠ k.LOCAL_SCAN_TEMPREJECT
  · exact ⟨2, hrc 2 (by decide), h2⟩
  by_cases h3 : (3 : Int) ≠ k.LOCAL_SCAN_ACCEPT ∧ (3 : Int) ≠ k.LOCAL_SCAN_REJECT ∧
      (3 : Int) ≠ k.LOCAL_SCAN_TEMPREJECT
  · exact ⟨3, hrc 3 (by decide), h3⟩
  exfalso
  omega

/-- C13, amended (disposition range).  For every run of `local_scan`, the
integer returned to the host is either the fallback `PYTHON_FAILURE_RETURN`,
which is `LOCAL_SCAN_ACCEPT`, or the integer that the entry point returned,
bare or as element 0 of a sequence, narrowed to the C `int`; that integer is
not checked against the set of disposition codes. -/
theorem C13_disposition_source (k : HostConsts) (rt : PyRuntime) (py : PyState) (h : Host)
    (fd : Int) (rt0 : Option String) :
    PYTHON_FAILURE_RETURN k = k.LOCAL_SCAN_ACCEPT ∧
    ((local_scan k rt py h fd rt0).rc = PYTHON_FAILURE_RETURN k ∨
     ∃ working r n, Returns k py h fd working r ∧
       (r = PyObject.int n ∨
        (PySequence_Check r = true ∧ PySequence_GetItem r 0 = some (PyObject.int n))) ∧
       (local_scan k rt py h fd rt0).rc = int_of_long n) := by
  refine ⟨rfl, ?_⟩
  rcases local_scan_paths k py h fd with hm | ⟨m, hm, hf⟩ | ⟨w, hraise⟩ | ⟨w, r, hret⟩
  · exact Or.inl (local_scan_of_import_failure k rt py h fd rt0 hm).1
  · exact Or.inl (local_scan_of_missing_function k rt py h fd rt0 m hm hf).1
  · exact Or.inl (local_scan_of_raises k rt py h fd rt0 w hraise).1
  · obtain ⟨py2, hls⟩ := local_scan_of_returns k rt py h fd rt0 w r hret
    rcases decode_result_rc k rt py2
      (reconcile (host_at_return k py h fd) (get_recipients h) w) rt0 r with hrc | ⟨n, hn, hrc⟩
    · left; rw [hls]; exact hrc
    · right
      exact ⟨w, r, n, hret, hn, by rw [hls]; exact hrc⟩

/-- C14 (single fallback code with distinguishable diagnostics).  Each of the
four bridge-internal failures of `local_scan` (the module cannot be imported,
the entry point is missing, the entry point raises, the returned value is not
decodable) returns `PYTHON_FAILURE_RETURN` and sets the diagnostic text to a
fixed string, the same for every host state and every script; the diagnostic
text and the log message for a missing entry point differ from those for a
module that cannot be imported. -/
theorem C14_single_fallback_code (k : HostConsts) (rt : PyRuntime) (py : PyState) (h : Host)
    (fd : Int) (rt0 : Option String) :
    (py.module = Option.none →
      (local_scan k rt py h fd rt0).rc = PYTHON_FAILURE_RETURN k ∧
      (local_scan k rt py h fd rt0).return_text = some "Internal error, missing module" ∧
      (local_scan k rt py h fd rt0).host.log_written =
        h.log_written ++ [(0, k.LOG_REJECT, "Couldn't import 'expy_local_scan' module")]) ∧
    (∀ m, py.module = some m → m.local_scan = Option.none →
      (local_scan k rt py h fd rt0).rc = PYTHON_FAILURE_RETURN k ∧
      (local_scan k rt py h fd rt0).return_text = some "Internal error, missing function" ∧
      (local_scan k rt py h fd rt0).host.log_written =
        h.log_written ++
          [(0, k.LOG_REJECT,
            "Python expy_local_scan module doesn't have a 'local_scan' function")]) ∧
    (∀ working, Raises k py h fd working →
      (local_scan k rt py h fd rt0).rc = PYTHON_FAILURE_RETURN k ∧
      (local_scan k rt py h fd rt0).return_text =
        some "Internal error, local_scan function failed") ∧
    (∀ working r, Returns k py h fd working r → Malformed r →
      (local_scan k rt py h fd rt0).rc = PYTHON_FAILURE_RETURN k ∧
      (local_scan k rt py h fd rt0).return_text = some "Internal error, bad return code") ∧
    ("Internal error, missing function" ≠ "Internal error, missing module" ∧
     "Python expy_local_scan module doesn't have a 'local_scan' function" ≠
       "Couldn't import 'expy_local_scan' module") := by
  refine ⟨?_, ?_, ?_, ?_, by decide⟩
  · intro hm
    obtain ⟨e1, e2, e3⟩ := local_scan_of_import_failure k rt py h fd rt0 hm
    exact ⟨e1, e2, by rw [e3]; rfl⟩
  · intro m hm hf
    obtain ⟨e1, e2, e3⟩ := local_scan_of_missing_function k rt py h fd rt0 m hm hf
    exact ⟨e1, e2, by rw [e3]; rfl⟩
  · intro working hraise
    obtain ⟨e1, e2, _⟩ := local_scan_of_raises k rt py h fd rt0 working hraise
    exact ⟨e1, e2⟩
  · intro working r hret hbad
    obtain ⟨py2, hls⟩ := local_scan_of_returns k rt py h fd rt0 working r hret
    obtain ⟨d1, d2, _⟩ := decode_result_malformed k rt py2
      (reconcile (host_at_return k py h fd) (get_recipients h) working) rt0 r hbad
    rw [hls]
    exact ⟨d1, d2⟩

/-- Worked examples for C14: a failed import, a module without entry point,
an entry point that raises, and an entry point that returns `None`. -/
theorem C14_witness :
    ((local_scan exim_consts plain_runtime
        { expy_exim_dict := Option.none, expy_user_module := Option.none,
          importable := Option.none }
        (host_of ["a"]) 0 Option.none).rc = PYTHON_FAILURE_RETURN exim_consts) ∧
    ((local_scan exim_consts plain_runtime
        { expy_exim_dict := Option.none, expy_user_module := Option.none,
          importable := some { local_scan := Option.none } }
        (host_of ["a"]) 0 Option.none).return_text = some "Internal error, missing function") ∧
    (Raises exim_consts (py_with (script_returning Option.none)) (host_of ["a"]) 0
        (some (address_list ["a"])) ∧
     (local_scan exim_consts plain_runtime (py_with (script_returning Option.none))
        (host_of ["a"]) 0 Option.none).rc = PYTHON_FAILURE_RETURN exim_consts) ∧
    (Returns exim_consts (py_with (script_returning (some PyObject.none))) (host_of ["a"]) 0
        (some (address_list ["a"])) PyObject.none ∧
     Malformed PyObject.none ∧
     (local_scan exim_consts plain_runtime (py_with (script_returning (some PyObject.none)))
        (host_of ["a"]) 0 Option.none).rc = PYTHON_FAILURE_RETURN exim_consts) :=
  ⟨((C14_single_fallback_code exim_consts plain_runtime
        { expy_exim_dict := Option.none, expy_user_module := Option.none,
          importable := Option.none }
        (host_of ["a"]) 0 Option.none).1 rfl).1,
   ((C14_single_fallback_code exim_consts plain_runtime
        { expy_exim_dict := Option.none, expy_user_module := Option.none,
          importable := some { local_scan := Option.none } }
        (host_of ["a"]) 0 Option.none).2.1 _ rfl rfl).2.1,
   ⟨⟨_, _, rfl, rfl, rfl, rfl⟩,
    ((C14_single_fallback_code exim_consts plain_runtime
        (py_with (script_returning Option.none)) (host_of ["a"]) 0 Option.none).2.2.1
        (some (address_list ["a"])) ⟨_, _, rfl, rfl, rfl, rfl⟩).1⟩,
   ⟨⟨_, _, rfl, rfl, rfl, rfl⟩, Or.inr (Or.inl ⟨rfl, rfl⟩),
    ((C14_single_fallback_code exim_consts plain_runtime
        (py_with (script_returning (some PyObject.none))) (host_of ["a"]) 0
        Option.none).2.2.2.1
        (some (address_list ["a"])) PyObject.none ⟨_, _, rfl, rfl, rfl, rfl⟩
        (Or.inr (Or.inl ⟨rfl, rfl⟩))).1⟩⟩

/-- C15, as stated, fails: a working entry that is added reaches the host
through a `char *`, which the host reads to the first NUL.  The store holds
`a`; the entry point leaves `a` and the string `a`, NUL, `b`; the second is
not in the original sequence and is appended, as `a`; the store ends as
`a, a`, not as `a` followed by that working entry. -/
theorem C15_counterexample :
    (host_of ["a"]).holds ["a"] ∧
    Returns exim_consts (py_with (script_setting ["a", "a\x00b"] (some (PyObject.int 1))))
      (host_of ["a"]) 0 (some (address_list ["a", "a\x00b"])) (PyObject.int 1) ∧
    (["a"].filter (fun a => decide (a ∈ ["a", "a\x00b"]))).map some ++
      (["a", "a\x00b"].reverse.filter (fun a => decide (a ∉ ["a"]))).map some =
        [some "a", some "a\x00b"] ∧
    (local_scan exim_consts plain_runtime
        (py_with (script_setting ["a", "a\x00b"] (some (PyObject.int 1))))
        (host_of ["a"]) 0 Option.none).host.recipients = [some "a", some "a"] ∧
    (local_scan exim_consts plain_runtime
        (py_with (script_setting ["a", "a\x00b"] (some (PyObject.int 1))))
        (host_of ["a"]) 0 Option.none).host.recipients ≠ [some "a", some "a\x00b"] :=
  ⟨⟨by decide, by decide, by decide⟩, ⟨_, _, rfl, rfl, rfl, rfl⟩, by decide, by decide,
   by decide⟩

/-- C15, amended (exact reconciled store).  When the entry point returns and
leaves a non-empty sequence of addresses `working` under `recipients`, the
removal calls are made at exactly the indices `i` of the original sequence
whose entry does not occur in `working`, from the highest index to the lowest,
each removing the entry of that index and no other; the final store is, in
order, the original entries that occur in `working`, in their original order,
followed by the entries of `working` that do not occur in the original
sequence, from the last position of `working` to the first, each read as a C
string (up to its first NUL character), hence the entries themselves when no
address of `working` contains a NUL character. -/
theorem C15_exact_reconciled_store (k : HostConsts) (rt : PyRuntime) (py : PyState)
    (h : Host) (fd : Int) (rt0 : Option String) (original working : List String)
    (w r : PyObject)
    (hstore : h.holds original) (hne : working ≠ []) (hw : IsAddressSeq w working)
    (hret : Returns k py h fd (some w) r) :
    ((local_scan k rt py h fd rt0).host.removed_calls.drop h.removed_calls.length).map
        Prod.fst =
      (List.range original.length).reverse.filter (dropped_at original working) ∧
    (local_scan k rt py h fd rt0).host.recipients =
      (original.filter (fun a => decide (a ∈ working))).map some ++
        (working.reverse.filter (fun a => decide (a ∉ original))).map
          (fun a => some (c_string a)) ∧
    (local_scan k rt py h fd rt0).host.recipients_count =
      ((original.filter (fun a => decide (a ∈ working))).length +
        (working.reverse.filter (fun a => decide (a ∉ original))).length : Nat) ∧
    (nul_free working →
      (local_scan k rt py h fd rt0).host.recipients =
        (original.filter (fun a => decide (a ∈ working))).map some ++
          (working.reverse.filter (fun a => decide (a ∉ original))).map some) := by
  obtain ⟨e1, e2, _⟩ :=
    local_scan_reconciled k rt py h fd rt0 original working w r hstore hne hw hret
  obtain ⟨py2, hls⟩ := local_scan_of_returns k rt py h fd rt0 (some w) r hret
  obtain ⟨_, c2, _, _, _, _⟩ :=
    reconcile_address_seq (host_at_return k py h fd) original working w
      (host_at_return_holds k py h fd original hstore) hw hne
  refine ⟨?_, e1, ?_, ?_⟩
  · rw [List.map_drop, e2]
    have hdrop := @List.drop_left _ (h.removed_calls.map Prod.fst)
      ((List.range original.length).reverse.filter (dropped_at original working))
    rw [List.length_map] at hdrop
    exact hdrop
  · have hwf : (local_scan k rt py h fd rt0).host.wf := by
      obtain ⟨d1, d2, _, _⟩ := decode_result_frame k rt py2
        (reconcile (host_at_return k py h fd) (get_recipients h) (some w)) rt0 r
      rw [hls]
      unfold Host.wf
      rw [d1, d2, get_recipients_of_holds h original hstore]
      exact c2
    have hlen := Host.length_recipients _ hwf
    rw [e1] at hlen
    simp only [List.length_map, List.length_append] at hlen
    have h0 := hwf.1
    omega
  · intro hnul
    rw [e1, map_c_string_of_nul_free _ (nul_free_filter working _ hnul)]

/-- Worked example for C15: the store holds `a, b, c, d`, the entry point
leaves `[d, x, b, y]`; slots 2 and 0 are removed in that order and the store
ends as `b, d, y, x`. -/
theorem C15_witness :
    (host_of ["a", "b", "c", "d"]).holds ["a", "b", "c", "d"] ∧
    nul_free ["d", "x", "b", "y"] ∧
    Returns exim_consts
      (py_with (script_setting ["d", "x", "b", "y"] (some (PyObject.int 0))))
      (host_of ["a", "b", "c", "d"]) 0 (some (address_list ["d", "x", "b", "y"]))
      (PyObject.int 0) ∧
    ((local_scan exim_consts plain_runtime
        (py_with (script_setting ["d", "x", "b", "y"] (some (PyObject.int 0))))
        (host_of ["a", "b", "c", "d"]) 0 Option.none).host.removed_calls.drop 0).map
        Prod.fst = [2, 0] ∧
    (local_scan exim_consts plain_runtime
        (py_with (script_setting ["d", "x", "b", "y"] (some (PyObject.int 0))))
        (host_of ["a", "b", "c", "d"]) 0 Option.none).host.recipients =
      [some "b", some "d", some "y", some "x"] :=
  ⟨⟨by decide, by decide, by decide⟩, by unfold nul_free; decide,
   ⟨_, _, rfl, rfl, rfl, rfl⟩,
   (C15_exact_reconciled_store exim_consts plain_runtime
      (py_with (script_setting ["d", "x", "b", "y"] (some (PyObject.int 0))))
      (host_of ["a", "b", "c", "d"]) 0 Option.none ["a", "b", "c", "d"] ["d", "x", "b", "y"]
      (address_list ["d", "x", "b", "y"]) (PyObject.int 0)
      ⟨by decide, by decide, by decide⟩ (by decide) (Or.inl rfl)
      ⟨_, _, rfl, rfl, rfl, rfl⟩).1.trans (by decide),
   ((C15_exact_reconciled_store exim_consts plain_runtime
      (py_with (script_setting ["d", "x", "b", "y"] (some (PyObject.int 0))))
      (host_of ["a", "b", "c", "d"]) 0 Option.none ["a", "b", "c", "d"] ["d", "x", "b", "y"]
      (address_list ["d", "x", "b", "y"]) (PyObject.int 0)
      ⟨by decide, by decide, by decide⟩ (by decide) (Or.inl rfl)
      ⟨_, _, rfl, rfl, rfl, rfl⟩).2.2.2 (by unfold nul_free; decide)).trans (by decide)⟩

/-! ## Header marshaling -/

theorem PyDict_get_set_same (d : Dict) (key : String) (v : PyObject) :
    PyDict_GetItemString (PyDict_SetItemString d key v) key = some v := by
  simp [PyDict_GetItemString, PyDict_SetItemString]

theorem PyDict_get_set_other (d : Dict) (key other : String) (v : PyObject)
    (hne : key ≠ other) :
    PyDict_GetItemString (PyDict_SetItemString d key v) other = PyDict_GetItemString d other := by
  unfold PyDict_GetItemString PyDict_SetItemString
  have hk : (key == other) = false := by simpa using hne
  rw [List.find?_cons]
  simp only [hk]
  congr 1
  induction d with
  | nil => rfl
  | cons e t ih =>
    by_cases he : e.1 = key
    · have h1 : (e.1 != key) = false := by simp [he]
      have h2 : (e.1 == other) = false := by rw [he]; exact hk
      rw [List.filter_cons, List.find?_cons]
      simp only [h1, h2]
      exact ih
    · have h1 : (e.1 != key) = true := by simpa using he
      rw [List.filter_cons]
      simp only [h1, if_true, List.find?_cons]
      cases (e.1 == other)
      · exact ih
      · rfl

theorem expy_get_headers_lines_eq (l : List header_line) :
    expy_get_headers_lines l =
      l.map (fun p => PyObject.tuple [PyObject.str p.text, PyObject.str (String.mk [p.type])]) := by
  induction l with
  | nil => rfl
  | cons p t ih => simp [expy_get_headers_lines, ih]

/-- C17 (header marshaling).  For every host header list, of `n` nodes,
`expy_get_headers` binds `headers` to a tuple of exactly `n` pairs whose
`i`-th pair is the text of the `i`-th node and the one-character string of
its type, in the order of the list; for the empty list the value bound is the
empty tuple; and this is the value the entry point finds under `headers`. -/
theorem C17_header_marshaling (k : HostConsts) (d : Dict) (h : Host) (fd : Int)
    (original : List PyObject) :
    PyDict_GetItemString (expy_get_headers d h) "headers" =
      some (PyObject.tuple (expy_get_headers_lines h.header_list)) ∧
    (expy_get_headers_lines h.header_list).length = h.header_list.length ∧
    (∀ i, (expy_get_headers_lines h.header_list).get? i =
      (h.header_list.get? i).map
        (fun p => PyObject.tuple [PyObject.str p.text, PyObject.str (String.mk [p.type])])) ∧
    (h.header_list = [] →
      PyDict_GetItemString (expy_get_headers d h) "headers" = some (PyObject.tuple [])) ∧
    PyDict_GetItemString (prepare_dict k d h fd original) "headers" =
      some (PyObject.tuple (expy_get_headers_lines h.header_list)) := by
  have hget : PyDict_GetItemString (expy_get_headers d h) "headers" =
      some (PyObject.tuple (expy_get_headers_lines h.header_list)) :=
    PyDict_get_set_same d "headers" _
  refine ⟨hget, ?_, ?_, ?_, ?_⟩
  · rw [expy_get_headers_lines_eq, List.length_map]
  · intro i
    rw [expy_get_headers_lines_eq]
    simp
  · intro he
    rw [hget, he]
    rfl
  · unfold prepare_dict
    simp only
    rw [PyDict_get_set_other _ "recipients" "headers" _ (by decide)]
    exact PyDict_get_set_same _ "headers" _

/-- Worked examples for C17: a host without headers, and a host with two
headers. -/
theorem C17_witness :
    PyDict_GetItemString
        (expy_get_headers expy_exim_methods
          { host_of ["a"] with header_list := [] }) "headers" = some (PyObject.tuple []) ∧
    PyDict_GetItemString
        (expy_get_headers expy_exim_methods
          { host_of ["a"] with
            header_list := [{ text := "Subject: hi\n", type := ' ' },
                            { text := "To: a\n", type := 'T' }] }) "headers" =
      some (PyObject.tuple
        [PyObject.tuple [PyObject.str "Subject: hi\n", PyObject.str " "],
         PyObject.tuple [PyObject.str "To: a\n", PyObject.str "T"]]) :=
  ⟨(C17_header_marshaling exim_consts expy_exim_methods
      { host_of ["a"] with header_list := [] } 0 []).2.2.2.1 rfl,
   (C17_header_marshaling exim_consts expy_exim_methods
      { host_of ["a"] with
        header_list := [{ text := "Subject: hi\n", type := ' ' },
                        { text := "To: a\n", type := 'T' }] } 0 []).1.trans rfl⟩

/-! ## Reconciliation does not depend on the returned value -/

theorem same_store_refl (h : Host) : same_store h h := ⟨rfl, rfl, rfl, rfl⟩

theorem same_store_symm (h1 h2 : Host) (e : same_store h1 h2) : same_store h2 h1 :=
  ⟨e.1.symm, e.2.1.symm, e.2.2.1.symm, e.2.2.2.symm⟩

theorem same_store_trans (h1 h2 h3 : Host) (e : same_store h1 h2) (f : same_store h2 h3) :
    same_store h1 h3 :=
  ⟨e.1.trans f.1, e.2.1.trans f.2.1, e.2.2.1.trans f.2.2.1, e.2.2.2.trans f.2.2.2⟩

theorem same_store_expy_remove_recipient (h1 h2 : Host) (n : Nat) (e : same_store h1 h2) :
    same_store (expy_remove_recipient h1 n) (expy_remove_recipient h2 n) := by
  obtain ⟨e1, e2, e3, e4⟩ := e
  unfold same_store expy_remove_recipient
  simp only [e1, e2, e3, e4]
  simp

theorem same_store_receive_add_recipient (h1 h2 : Host) (a : Option String) (pno : Int)
    (e : same_store h1 h2) :
    same_store (receive_add_recipient h1 a pno) (receive_add_recipient h2 a pno) := by
  obtain ⟨e1, e2, e3, e4⟩ := e
  unfold same_store receive_add_recipient
  simp only [e1, e2, e3, e4]
  simp

theorem same_store_remove_missing (original : List PyObject) (working : PyObject) (m : Nat)
    (h1 h2 : Host) (e : same_store h1 h2) :
    same_store (remove_missing original working m h1) (remove_missing original working m h2) := by
  induction m generalizing h1 h2 with
  | zero => exact e
  | succ m ih =>
    simp only [remove_missing]
    split
    · exact ih _ _ (same_store_expy_remove_recipient h1 h2 m e)
    · exact ih _ _ e

theorem same_store_add_new (original : List PyObject) (working : PyObject) (m : Nat)
    (h1 h2 : Host) (e : same_store h1 h2) :
    same_store (add_new original working m h1) (add_new original working m h2) := by
  induction m generalizing h1 h2 with
  | zero => exact e
  | succ m ih =>
    simp only [add_new]
    split
    · exact ih _ _ (same_store_receive_add_recipient h1 h2 _ (-1) e)
    · exact ih _ _ e

theorem same_store_reconcile (h1 h2 : Host) (original : List PyObject)
    (working : Option PyObject) (e : same_store h1 h2) :
    same_store (reconcile h1 original working) (reconcile h2 original working) := by
  unfold reconcile
  split
  · exact ⟨e.1, rfl, e.2.2.1, e.2.2.2⟩
  · split
    · exact ⟨e.1, rfl, e.2.2.1, e.2.2.2⟩
    · rw [e.2.1]
      exact same_store_add_new _ _ _ _ _ (same_store_remove_missing _ _ _ _ _ e)

/-- The store after a call whose entry point returns is the store that
reconciliation computes from the store at call start. -/
theorem local_scan_same_store (k : HostConsts) (rt : PyRuntime) (py : PyState) (h : Host)
    (fd : Int) (rt0 : Option String) (working : Option PyObject) (r : PyObject)
    (hret : Returns k py h fd working r) :
    same_store (local_scan k rt py h fd rt0).host (reconcile h (get_recipients h) working) := by
  obtain ⟨py2, hls⟩ := local_scan_of_returns k rt py h fd rt0 working r hret
  rw [hls]
  exact same_store_trans _ _ _
    (decode_result_frame k rt py2 _ rt0 r)
    (same_store_reconcile _ _ _ _ (host_at_return_frame k py h fd))

/-- C16 (reconciliation is unconditional on the return value).  From the same
host state and with the same binding of `recipients` left by the entry point,
two runs whose entry points return, whatever the two returned values, end with
the same recipient array, count and live store, which are those that
reconciliation computes from the store at call start; this holds in
particular when the returned value is not decodable and `local_scan` returns
the fallback disposition. -/
theorem C16_reconciliation_unconditional (k : HostConsts) (rt1 rt2 : PyRuntime)
    (py1 py2 : PyState) (h : Host) (fd : Int) (rt01 rt02 : Option String)
    (working : Option PyObject) (r1 r2 : PyObject)
    (hret1 : Returns k py1 h fd working r1) (hret2 : Returns k py2 h fd working r2) :
    (local_scan k rt1 py1 h fd rt01).host.recipients_list =
      (local_scan k rt2 py2 h fd rt02).host.recipients_list ∧
    (local_scan k rt1 py1 h fd rt01).host.recipients_count =
      (local_scan k rt2 py2 h fd rt02).host.recipients_count ∧
    (local_scan k rt1 py1 h fd rt01).host.recipients =
      (local_scan k rt2 py2 h fd rt02).host.recipients ∧
    same_store (local_scan k rt1 py1 h fd rt01).host (reconcile h (get_recipients h) working) ∧
    (Malformed r1 →
      (local_scan k rt1 py1 h fd rt01).rc = PYTHON_FAILURE_RETURN k ∧
      (local_scan k rt1 py1 h fd rt01).host.removed_calls =
        (reconcile h (get_recipients h) working).removed_calls ∧
      (local_scan k rt1 py1 h fd rt01).host.added_calls =
        (reconcile h (get_recipients h) working).added_calls) := by
  have s1 := local_scan_same_store k rt1 py1 h fd rt01 working r1 hret1
  have s2 := local_scan_same_store k rt2 py2 h fd rt02 working r2 hret2
  have s12 := same_store_trans _ _ _ s1 (same_store_symm _ _ s2)
  refine ⟨s12.1, s12.2.1, ?_, s1, ?_⟩
  · unfold Host.recipients
    rw [s12.1, s12.2.1]
  · intro hbad
    obtain ⟨py3, hls⟩ := local_scan_of_returns k rt1 py1 h fd rt01 working r1 hret1
    refine ⟨?_, s1.2.2.1, s1.2.2.2⟩
    rw [hls]
    exact (decode_result_malformed k rt1 py3 _ rt01 r1 hbad).1

/-- Worked example for C16: the store holds `a, b`; two entry points leave
`[b, c]` under `recipients`, one returning 0 and one returning `None`; both
runs end with the store `b, c`. -/
theorem C16_witness :
    Returns exim_consts (py_with (script_setting ["b", "c"] (some (PyObject.int 0))))
      (host_of ["a", "b"]) 0 (some (address_list ["b", "c"])) (PyObject.int 0) ∧
    Returns exim_consts (py_with (script_setting ["b", "c"] (some PyObject.none)))
      (host_of ["a", "b"]) 0 (some (address_list ["b", "c"])) PyObject.none ∧
    (local_scan exim_consts plain_runtime
        (py_with (script_setting ["b", "c"] (some (PyObject.int 0))))
        (host_of ["a", "b"]) 0 Option.none).host.recipients =
      (local_scan exim_consts plain_runtime
        (py_with (script_setting ["b", "c"] (some PyObject.none)))
        (host_of ["a", "b"]) 0 Option.none).host.recipients ∧
    (local_scan exim_consts plain_runtime
        (py_with (script_setting ["b", "c"] (some PyObject.none)))
        (host_of ["a", "b"]) 0 Option.none).host.recipients = [some "b", some "c"] ∧
    (local_scan exim_consts plain_runtime
        (py_with (script_setting ["b", "c"] (some PyObject.none)))
        (host_of ["a", "b"]) 0 Option.none).rc = PYTHON_FAILURE_RETURN exim_consts :=
  ⟨⟨_, _, rfl, rfl, rfl, rfl⟩, ⟨_, _, rfl, rfl, rfl, rfl⟩,
   (C16_reconciliation_unconditional exim_consts plain_runtime plain_runtime
      (py_with (script_setting ["b", "c"] (some (PyObject.int 0))))
      (py_with (script_setting ["b", "c"] (some PyObject.none)))
      (host_of ["a", "b"]) 0 Option.none Option.none (some (address_list ["b", "c"]))
      (PyObject.int 0) PyObject.none
      ⟨_, _, rfl, rfl, rfl, rfl⟩ ⟨_, _, rfl, rfl, rfl, rfl⟩).2.2.1,
   by decide, by decide⟩

/-! ## Index safety of reconciliation -/

theorem remove_missing_calls_spec (orig : List String) (working : PyObject) (m : Nat)
    (h : Host) (hwf : h.wf) (hm : m ≤ h.recipients_count.toNat) (hmo : m ≤ orig.length)
    (hview : h.recipients.take m = (orig.take m).map some) :
    (remove_missing (orig.map PyObject.str) working m h).removed_calls =
        h.removed_calls ++
          (remove_missing_calls (orig.map PyObject.str) working m h).map
            (fun c => (c.1, c.2.recipients_count)) ∧
    ∀ c ∈ remove_missing_calls (orig.map PyObject.str) working m h,
      c.2.wf ∧ c.1 < c.2.recipients_count.toNat ∧
      ∃ a, orig.get? c.1 = some a ∧ c.2.recipients.get? c.1 = some (some a) := by
  induction m generalizing h with
  | zero => simp [remove_missing, remove_missing_calls]
  | succ m ih =>
    have hmlt : m < orig.length := by omega
    have haddr : ((orig.map PyObject.str).get? m).getD PyObject.none = PyObject.str orig[m] := by
      simp [List.getElem?_eq_getElem hmlt]
    have hlenr := Host.length_recipients h hwf
    have hmr : m < h.recipients.length := by omega
    have hsome : h.recipients[m]? = some (some orig[m]) := by
      have := congrArg (fun l => l[m]?) hview
      simp only [List.getElem?_take, List.getElem?_map] at this
      simpa [List.getElem?_eq_getElem hmlt] using this
    have hviewm : h.recipients.take m = (orig.take m).map some := by
      have := congrArg (List.take m) hview
      simpa [List.take_take] using this
    simp only [remove_missing, remove_missing_calls, haddr]
    by_cases hc : PySequence_Contains working (PyObject.str orig[m]) = 0
    · rw [if_pos hc, if_pos hc]
      obtain ⟨r1, r2, r3⟩ := recipients_expy_remove_recipient h m hwf (by omega)
      obtain ⟨i1, i2⟩ := ih (expy_remove_recipient h m) r2 (by rw [r3]; omega) (by omega)
        (by rw [r1, take_eraseIdx_self]; exact hviewm)
      refine ⟨?_, ?_⟩
      · rw [i1]
        simp [expy_remove_recipient]
      · intro c hcmem
        rcases List.mem_cons.1 hcmem with e | hcmem
        · rw [e]
          refine ⟨hwf, ?_, orig[m], ?_, ?_⟩
          · show m < h.recipients_count.toNat
            omega
          · simp [List.getElem?_eq_getElem hmlt]
          · simpa using hsome
        · exact i2 c hcmem
    · rw [if_neg hc, if_neg hc]
      exact ih h hwf (by omega) (by omega) hviewm

theorem add_new_count_ge (original : List PyObject) (working : PyObject) (m : Nat) (h : Host) :
    h.recipients_count ≤ (add_new original working m h).recipients_count := by
  induction m generalizing h with
  | zero => simp [add_new]
  | succ m ih =>
    simp only [add_new]
    split
    · have := ih (receive_add_recipient h
        (PyString_AsString ((PySequence_GetItem working m).getD PyObject.none)) (-1))
      have hc : (receive_add_recipient h
        (PyString_AsString ((PySequence_GetItem working m).getD PyObject.none)) (-1)).recipients_count
          = h.recipients_count + 1 := rfl
      omega
    · exact ih h

theorem getItem_in_bounds (w : PyObject) (hs : PySequence_Check w = true) (i : Nat)
    (hi : (i : Int) < PySequence_Size w) : (PySequence_GetItem w i).isSome = true := by
  cases w with
  | str s =>
    simp only [PySequence_Size] at hi
    have : i < s.data.length := by omega
    simp [PySequence_GetItem, List.getElem?_eq_getElem this]
  | tuple items =>
    simp only [PySequence_Size] at hi
    have : i < items.length := by omega
    simp [PySequence_GetItem, List.getElem?_eq_getElem this]
  | list items =>
    simp only [PySequence_Size] at hi
    have : i < items.length := by omega
    simp [PySequence_GetItem, List.getElem?_eq_getElem this]
  | none => simp [PySequence_Check] at hs
  | int v => simp [PySequence_Check] at hs
  | other t => simp [PySequence_Check] at hs

/-- Removal calls and final count of the reconciliation block, for a store
that holds the addresses `orig`. -/
theorem reconcile_calls_spec (h : Host) (orig : List String) (working : Option PyObject)
    (hh : h.holds orig) :
    (reconcile h (orig.map PyObject.str) working).removed_calls =
        h.removed_calls ++
          (reconcile_remove_calls h (orig.map PyObject.str) working).map
            (fun c => (c.1, c.2.recipients_count)) ∧
    (∀ c ∈ reconcile_remove_calls h (orig.map PyObject.str) working,
      c.2.wf ∧ c.1 < c.2.recipients_count.toNat ∧
      ∃ a, orig.get? c.1 = some a ∧ c.2.recipients.get? c.1 = some (some a)) ∧
    0 ≤ (reconcile h (orig.map PyObject.str) working).recipients_count := by
  have hwf := Host.wf_of_holds h orig hh
  have hcount := Host.count_of_holds h orig hh
  cases working with
  | none => simp [reconcile, reconcile_remove_calls]
  | some w =>
    by_cases hc : PySequence_Check w = false ∨ PySequence_Size w = 0
    · simp [reconcile, reconcile_remove_calls, hc]
    · simp only [reconcile, reconcile_remove_calls, if_neg hc]
      obtain ⟨c1, c2⟩ := remove_missing_calls_spec orig w h.recipients_count.toNat h hwf
        (Nat.le_refl _) (by omega) (by rw [hh.2.2, hcount]; simp)
      obtain ⟨_, r2, _⟩ := remove_missing_spec orig w h.recipients_count.toNat h hwf
        (Nat.le_refl _) (by omega) (by rw [hh.2.2, hcount]; simp)
      obtain ⟨_, _, a3⟩ := add_new_frame (orig.map PyObject.str) w (PySequence_Size w).toNat
        (remove_missing (orig.map PyObject.str) w h.recipients_count.toNat h)
      have hge := add_new_count_ge (orig.map PyObject.str) w (PySequence_Size w).toNat
        (remove_missing (orig.map PyObject.str) w h.recipients_count.toNat h)
      refine ⟨by rw [a3, c1], c2, ?_⟩
      have := r2.1
      omega

theorem expy_remove_shift_checked_eq (k i : Nat) (l : List recipient_item)
    (hb : i + k < l.length) :
    expy_remove_shift_checked k i l = some (expy_remove_shift k i l) := by
  induction k generalizing i l with
  | zero => rfl
  | succ k ih =>
    have h1 : i + 1 < l.length := by omega
    have h0 : i < l.length := by omega
    have hget : l.get? (i + 1) = some l[i + 1] := by
      simp [List.getElem?_eq_getElem h1]
    simp only [expy_remove_shift_checked, expy_remove_shift, hget, if_pos h0]
    exact ih (i + 1) (l.set i l[i + 1]) (by simp; omega)

theorem expy_remove_recipient_checked_eq (h : Host) (n : Nat) (hwf : h.wf)
    (hn : n < h.recipients_count.toNat) :
    expy_remove_recipient_checked h n = some (expy_remove_recipient h n) := by
  obtain ⟨h0, h1⟩ := hwf
  have hlt : (n : Int) < h.recipients_count := by omega
  unfold expy_remove_recipient_checked expy_remove_recipient
  rw [if_pos hlt, expy_remove_shift_checked_eq _ _ _ (by omega)]

theorem remove_missing_checked_eq (orig : List String) (working : PyObject) (m : Nat)
    (h : Host) (hwf : h.wf) (hm : m ≤ h.recipients_count.toNat) (hmo : m ≤ orig.length) :
    remove_missing_checked (orig.map PyObject.str) working m h =
      some (remove_missing (orig.map PyObject.str) working m h) := by
  induction m generalizing h with
  | zero => rfl
  | succ m ih =>
    have hmlt : m < orig.length := by omega
    have hget : (orig.map PyObject.str).get? m = some (PyObject.str orig[m]) := by
      simp [List.getElem?_eq_getElem hmlt]
    simp only [remove_missing_checked, remove_missing, hget, Option.getD_some]
    by_cases hc : PySequence_Contains working (PyObject.str orig[m]) = 0
    · rw [if_pos hc, if_pos hc, expy_remove_recipient_checked_eq h m hwf (by omega)]
      obtain ⟨_, r2, r3⟩ := recipients_expy_remove_recipient h m hwf (by omega)
      exact ih (expy_remove_recipient h m) r2 (by rw [r3]; omega) (by omega)
    · rw [if_neg hc, if_neg hc]
      exact ih h hwf (by omega) (by omega)

theorem add_new_checked_eq (original : List PyObject) (w : PyObject)
    (hs : PySequence_Check w = true) (m : Nat) (h : Host)
    (hm : (m : Int) ≤ PySequence_Size w) :
    add_new_checked original w m h = some (add_new original w m h) := by
  induction m generalizing h with
  | zero => rfl
  | succ m ih =>
    have hin := getItem_in_bounds w hs m (by omega)
    obtain ⟨addr, haddr⟩ := Option.isSome_iff_exists.1 hin
    simp only [add_new_checked, add_new, haddr, Option.getD_some]
    exact ih _ (by omega)

theorem reconcile_checked_eq (h : Host) (orig : List String) (working : Option PyObject)
    (hh : h.holds orig) :
    reconcile_checked h (orig.map PyObject.str) working =
      some (reconcile h (orig.map PyObject.str) working) := by
  have hwf := Host.wf_of_holds h orig hh
  have hcount := Host.count_of_holds h orig hh
  cases working with
  | none => rfl
  | some w =>
    by_cases hc : PySequence_Check w = false ∨ PySequence_Size w = 0
    · simp only [reconcile_checked, reconcile, if_pos hc]
    · simp only [reconcile_checked, reconcile, if_neg hc]
      rw [remove_missing_checked_eq orig w h.recipients_count.toNat h hwf (Nat.le_refl _)
        (by omega)]
      have hs : PySequence_Check w = true := by
        cases hck : PySequence_Check w with
        | true => rfl
        | false => exact absurd (Or.inl hck) hc
      have hsz : 0 ≤ PySequence_Size w := by
        cases w <;> simp_all [PySequence_Check, PySequence_Size]
      exact add_new_checked_eq _ w hs _ _ (by omega)

/-- C18 (index safety of reconciliation).  When at call start the store holds
the addresses `original` (the count is their number and is not negative) and
the entry point returns, then the run of `local_scan` in which the
reconciliation block checks every index it uses (the index of each removal
call against `recipients_count` at the moment of the call, each slot of the
recipient array read or written by the shift loop, each read of the original
tuple and each read of the working sequence) fails no check and gives the
result of `local_scan`; the removal calls recorded by `local_scan` are those
of the reconciliation loop, each made with `0 <= i < recipients_count` at the
moment of the call, with the live slots inside the array, on the slot that
holds `original[i]`, which is the entry it removes, and leaving a count that
is not negative; and the final count is not negative. -/
theorem C18_index_safety (k : HostConsts) (rt : PyRuntime) (py : PyState) (h : Host)
    (fd : Int) (rt0 : Option String) (original : List String) (working : Option PyObject)
    (r : PyObject)
    (hstore : h.holds original) (hret : Returns k py h fd working r) :
    local_scan_checked k rt py h fd rt0 = some (local_scan k rt py h fd rt0) ∧
    ((local_scan k rt py h fd rt0).host.removed_calls.drop h.removed_calls.length =
      (reconcile_remove_calls (host_at_return k py h fd) (get_recipients h) working).map
        (fun c => (c.1, c.2.recipients_count))) ∧
    (∀ c ∈ reconcile_remove_calls (host_at_return k py h fd) (get_recipients h) working,
      (0 : Int) ≤ (c.1 : Int) ∧ (c.1 : Int) < c.2.recipients_count ∧
      c.2.recipients_count.toNat ≤ c.2.recipients_list.length ∧
      (∃ a, original.get? c.1 = some a ∧ c.2.recipients.get? c.1 = some (some a)) ∧
      (expy_remove_recipient c.2 c.1).recipients = c.2.recipients.eraseIdx c.1 ∧
      0 ≤ (expy_remove_recipient c.2 c.1).recipients_count) ∧
    0 ≤ (local_scan k rt py h fd rt0).host.recipients_count := by
  obtain ⟨py2, hls⟩ := local_scan_of_returns k rt py h fd rt0 working r hret
  obtain ⟨_, d2, d3, _⟩ := decode_result_frame k rt py2
    (reconcile (host_at_return k py h fd) (get_recipients h) working) rt0 r
  obtain ⟨_, _, f3, _⟩ := host_at_return_frame k py h fd
  have hh := host_at_return_holds k py h fd original hstore
  have hrec := get_recipients_of_holds h original hstore
  obtain ⟨c1, c2, c3⟩ := reconcile_calls_spec (host_at_return k py h fd) original working hh
  have hchk := reconcile_checked_eq (host_at_return k py h fd) original working hh
  rw [← hrec] at c1 c2 c3 hchk
  refine ⟨?_, ?_, ?_, ?_⟩
  · obtain ⟨m, f, hm, hf, hr, hw⟩ := hret
    have hat : host_at_return k py h fd = host_after_call k h (call_user_func k py h fd f) := by
      unfold host_at_return
      simp only [hm, hf]
    rw [hat] at hchk
    unfold local_scan_checked local_scan
    simp only [hm, hf, hr, hw, hchk]
  · rw [hls, d3, c1, f3, List.drop_left]
  · intro c hc
    obtain ⟨w1, w2, w3⟩ := c2 c hc
    obtain ⟨q1, q2, q3⟩ := recipients_expy_remove_recipient c.2 c.1 w1 w2
    have h0 := w1.1
    refine ⟨by omega, by omega, w1.2, w3, q1, ?_⟩
    rw [q3]
    omega
  · rw [hls, d2]
    exact c3

/-- Worked example for C18: the store holds `a, b, c` and the entry point
leaves `[b]`; slot 2 is removed while the count is 3, then slot 0 while the
count is 2, and the checked run fails no check. -/
theorem C18_witness :
    (host_of ["a", "b", "c"]).holds ["a", "b", "c"] ∧
    Returns exim_consts (py_with (script_setting ["b"] (some (PyObject.int 0))))
      (host_of ["a", "b", "c"]) 0 (some (address_list ["b"])) (PyObject.int 0) ∧
    (local_scan exim_consts plain_runtime
        (py_with (script_setting ["b"] (some (PyObject.int 0))))
        (host_of ["a", "b", "c"]) 0 Option.none).host.removed_calls = [(2, 3), (0, 2)] ∧
    (local_scan exim_consts plain_runtime
        (py_with (script_setting ["b"] (some (PyObject.int 0))))
        (host_of ["a", "b", "c"]) 0 Option.none).host.recipients = [some "b"] ∧
    (local_scan_checked exim_consts plain_runtime
        (py_with (script_setting ["b"] (some (PyObject.int 0))))
        (host_of ["a", "b", "c"]) 0 Option.none).isSome = true ∧
    0 ≤ (local_scan exim_consts plain_runtime
        (py_with (script_setting ["b"] (some (PyObject.int 0))))
        (host_of ["a", "b", "c"]) 0 Option.none).host.recipients_count :=
  ⟨⟨by decide, by decide, by decide⟩, ⟨_, _, rfl, rfl, rfl, rfl⟩, by decide, by decide,
   by
    rw [(C18_index_safety exim_consts plain_runtime
      (py_with (script_setting ["b"] (some (PyObject.int 0))))
      (host_of ["a", "b", "c"]) 0 Option.none ["a", "b", "c"] (some (address_list ["b"]))
      (PyObject.int 0) ⟨by decide, by decide, by decide⟩
      ⟨_, _, rfl, rfl, rfl, rfl⟩).1]
    rfl,
   (C18_index_safety exim_consts plain_runtime
      (py_with (script_setting ["b"] (some (PyObject.int 0))))
      (host_of ["a", "b", "c"]) 0 Option.none ["a", "b", "c"] (some (address_list ["b"]))
      (PyObject.int 0) ⟨by decide, by decide, by decide⟩
      ⟨_, _, rfl, rfl, rfl, rfl⟩).2.2.2⟩

end Expy
